import Mathlib

set_option maxHeartbeats 1000000

/-!
Shallow embedding of the bf8 system: the virtual machine (opcode dispatch and
brainfuck-dialect interpreter) and the assembly-to-brainfuck code generator.

Modelling conventions, mirroring the Go source:
* bytes are `Nat` values; a Go `byte(...)` conversion of an `int` appears as
  `Int.emod _ 256` (low 8 bits, two's complement);
* Go `int` arithmetic that can go negative is done in `Int`; Go's `%` on `int`
  is truncated remainder, i.e. `Int.tmod`;
* the Go channel send `opChan <- op` is modelled by returning the list of
  forwarded `Op` values (in order);
* Go panics (out-of-range slice index, generator stack underflow, bad operand
  kinds) are modelled by `Option`/clamping where a claim depends on them;
* the `clockRate` pacing sleep has no effect on machine state and is omitted;
* the unbounded `for` loops of the interpreter are given explicit fuel; the
  scanning loops (`runLen`, bracket matching) get fuel that provably exceeds
  the number of iterations the Go loop can make, so the functions agree with
  the source on every input the source terminates on.
-/

/-- One dispatched operation: an opcode byte plus 8 argument bytes
(Go `Op` with `code Opcode; args [8]byte`). -/
structure Op where
  code : Nat
  args : List Nat
deriving DecidableEq

/-- `Byte` returns `args[len(args)-i-1]`, i.e. `Byte 0` is the last byte of
`args` (Go `Op.Byte`). `args` always has length 8 by construction. -/
def Op.Byte (op : Op) (i : Nat) : Nat :=
  op.args.getD (8 - i - 1) 0

/-- Go `Op.Word`: `uint16(Byte(1))<<8 | uint16(Byte(0))`. The index parameter
is present in the source but never used there. -/
def Op.Word (op : Op) (_i : Nat) : Nat :=
  (op.Byte 1) <<< 8 ||| op.Byte 0

/-- Go `Op.QWord`: `uint32(Byte(3))<<24 | uint32(Byte(2))<<16 |
uint32(Byte(1))<<8 | uint32(Byte(0))`. The index parameter is unused in the
source. -/
def Op.QWord (op : Op) (_i : Nat) : Nat :=
  ((op.Byte 3) <<< 24 ||| (op.Byte 2) <<< 16) ||| (op.Byte 1) <<< 8 ||| op.Byte 0

/-- The two errors of the VM (`ErrProgramNoMemory`, `ErrCodeBracketImbalance`). -/
inductive VMError where
  | noMemory
  | bracketImbalance
deriving DecidableEq

/-- Byte values of the eight brainfuck control characters. -/
def bfChars : List Nat := [46, 44, 43, 45, 62, 60, 91, 93]

/-- Go `ValidateBrainfuck`: a single pass counting `'['` (91) up and `']'` (93)
down; reports `ErrCodeBracketImbalance` iff the final depth is nonzero. -/
def ValidateBrainfuck (code : List Nat) : Option VMError :=
  let depth : Int :=
    code.foldl (fun d b => if b = 91 then d + 1 else if b = 93 then d - 1 else d) 0
  if depth ≠ 0 then some VMError.bracketImbalance else none

/-- The VM state (Go `Program`), minus the state-irrelevant `clockRate`. -/
structure Program where
  memory : List Nat
  dataStart : Nat
  pc : Nat
  r8a : Nat
  r8b : Nat
  r16a : Nat
  r16b : Nat
  r32a : Nat
  r32b : Nat
  memPtr : Nat
deriving DecidableEq, Inhabited

/-- Go `NewProgram`: validate, filter the input down to the eight brainfuck
instruction bytes, and build the memory: the filtered code at the start, then
zeros up to `dataStart + 30_000` where `dataStart = len(code) + 10`. -/
def NewProgram (code : List Nat) : Except VMError Program :=
  match ValidateBrainfuck code with
  | some e => Except.error e
  | none =>
    let filtered := code.filter (fun b => bfChars.contains b)
    let dataStart := filtered.length + 10
    Except.ok
      { memory := filtered ++ List.replicate (10 + 30000) 0
        dataStart := dataStart
        pc := 0
        r8a := 0, r8b := 0, r16a := 0, r16b := 0, r32a := 0, r32b := 0
        memPtr := dataStart }

/-- Go `Program.CodeSection`. -/
def Program.CodeSection (p : Program) : List Nat :=
  p.memory.take p.dataStart

/-- Go `Program.DataSection`. -/
def Program.DataSection (p : Program) : List Nat :=
  p.memory.drop p.dataStart

/-- Go `Program.Right`: increment `memPtr`, wrapping to 0 at `len(memory)`. -/
def Program.Right (p : Program) : Program :=
  if p.memPtr + 1 ≥ p.memory.length then { p with memPtr := 0 }
  else { p with memPtr := p.memPtr + 1 }

/-- Go `Program.Left`: decrement `memPtr`, wrapping to `len(memory)-1` below 0. -/
def Program.Left (p : Program) : Program :=
  if p.memPtr = 0 then { p with memPtr := p.memory.length - 1 }
  else { p with memPtr := p.memPtr - 1 }

/-- Go `Program.Byte`: read `memory[idx]`. The Go index is an `int`; an
out-of-range access panics in Go and is clamped to the default 0 here (every
claim that depends on this region carries in-range hypotheses). -/
def Program.Byte (p : Program) (idx : Int) : Nat :=
  p.memory.getD idx.toNat 0

/-- Go `Program.SetByte`: write `memory[idx] = value`. -/
def Program.SetByte (p : Program) (idx : Int) (value : Nat) : Program :=
  { p with memory := p.memory.set idx.toNat value }

/-- Go `Program.Word`: big-endian 16-bit read at `idx-1, idx`. -/
def Program.Word (p : Program) (idx : Int) : Nat :=
  (p.Byte (idx - 1)) <<< 8 ||| p.Byte idx

/-- Go `Program.SetWord`: big-endian 16-bit write at `idx-1, idx`. -/
def Program.SetWord (p : Program) (idx : Int) (value : Nat) : Program :=
  (p.SetByte (idx - 1) ((value >>> 8) % 256)).SetByte idx (value % 256)

/-- Go `Program.QWord`: big-endian 32-bit read at `idx-3 .. idx`. -/
def Program.QWord (p : Program) (idx : Int) : Nat :=
  ((p.Byte (idx - 3)) <<< 24 ||| (p.Byte (idx - 2)) <<< 16) |||
    (p.Byte (idx - 1)) <<< 8 ||| p.Byte idx

/-- Go `Program.SetQWord`: big-endian 32-bit write at `idx-3 .. idx`. -/
def Program.SetQWord (p : Program) (idx : Int) (value : Nat) : Program :=
  (((p.SetByte (idx - 3) ((value >>> 24) % 256)).SetByte
      (idx - 2) ((value >>> 16) % 256)).SetByte
      (idx - 1) ((value >>> 8) % 256)).SetByte idx (value % 256)

/-- Go `AddRolling`: `(n + amt) % max` on `int`, i.e. truncated remainder. -/
def AddRolling (n amt max : Int) : Int :=
  (n + amt).tmod max

/-- Go `SubRolling`: `(n - amt) % max` on `int`, i.e. truncated remainder. -/
def SubRolling (n amt max : Int) : Int :=
  (n - amt).tmod max

/-- Helper for `Program.Run`'s run-length fusion: the number of consecutive
bytes equal to `c` starting at index `i` (Go scans with
`for i = p.pc; p.memory[i] == c; i++`). The fuel argument strictly exceeds any
possible run length. -/
def runLenAux (mem : List Nat) (c : Nat) : Nat → Nat → Nat
  | 0, _ => 0
  | fuel + 1, i => if mem.getD i 0 = c then runLenAux mem c fuel (i + 1) + 1 else 0

/-- Length of the run of bytes equal to `c` starting at `i`. -/
def runLen (mem : List Nat) (c : Nat) (i : Nat) : Nat :=
  runLenAux mem c (mem.length + 1) i

/-- Go `Program.JumpToCloseLoop` body: scan forward from `pc` tracking bracket
depth; stop at the matching `']'` (returning its index), or at a zero byte. -/
def jctAux (mem : List Nat) : Nat → Nat → Int → Nat
  | 0, pc, _ => pc
  | fuel + 1, pc, depth =>
    let instr := mem.getD pc 0
    if instr = 0 then pc
    else if instr = 91 then jctAux mem fuel (pc + 1) (depth + 1)
    else if instr = 93 then
      if depth - 1 ≤ 0 then pc else jctAux mem fuel (pc + 1) (depth - 1)
    else jctAux mem fuel (pc + 1) depth

/-- Go `Program.JumpToCloseLoop` (the scan always halts by the first zero byte,
which exists at or before `mem.length` since `getD` defaults to 0). -/
def jumpToCloseLoop (mem : List Nat) (pc : Nat) : Nat :=
  jctAux mem (mem.length + 1) pc 0

/-- Go `Program.JumpToOpenLoop` body: scan backward from `pc` tracking bracket
depth; stop at the matching `'['`, at a zero byte, or clamp at index 0. -/
def jolAux (mem : List Nat) : Nat → Nat → Int → Nat
  | 0, pc, _ => pc
  | fuel + 1, pc, depth =>
    let instr := mem.getD pc 0
    if instr = 0 then pc
    else if instr = 93 then
      if pc = 0 then 0 else jolAux mem fuel (pc - 1) (depth + 1)
    else if instr = 91 then
      if depth - 1 ≤ 0 then pc
      else if pc = 0 then 0 else jolAux mem fuel (pc - 1) (depth - 1)
    else if pc = 0 then 0 else jolAux mem fuel (pc - 1) depth

/-- Go `Program.JumpToOpenLoop` (the scan decrements `pc`, so it makes at most
`pc + 1` steps before the index-0 clamp). -/
def jumpToOpenLoop (mem : List Nat) (pc : Nat) : Nat :=
  jolAux mem (pc + 2) pc 0

/-- Go `Program.Op` (the opcode dispatcher): service the internal table
(no-op 0, relative jumps 1-2, register stores 20-25, register loads 26-31)
and forward anything else. The returned list holds the ops sent on `opChan`. -/
def Program.opDispatch (p : Program) (op : Op) : Program × List Op :=
  if op.code = 0 then (p, [])
  else if op.code = 1 then
    let pc' := p.pc + op.Byte 0
    (if pc' ≥ p.memory.length then { p with pc := p.memory.length - 1 }
     else { p with pc := pc' }, [])
  else if op.code = 2 then
    ({ p with pc := p.pc - op.Byte 0 }, [])
  else if op.code = 20 then ({ p with r8a := op.Byte 0 }, [])
  else if op.code = 21 then ({ p with r8b := op.Byte 0 }, [])
  else if op.code = 22 then ({ p with r16a := op.Word 0 }, [])
  else if op.code = 23 then ({ p with r16b := op.Word 0 }, [])
  else if op.code = 24 then ({ p with r32a := op.QWord 0 }, [])
  else if op.code = 25 then ({ p with r32b := op.QWord 0 }, [])
  else if op.code = 26 then (p.SetByte ((p.memPtr : Int) - 1) p.r8a, [])
  else if op.code = 27 then (p.SetByte ((p.memPtr : Int) - 1) p.r8b, [])
  else if op.code = 28 then (p.SetWord ((p.memPtr : Int) - 1) p.r16a, [])
  else if op.code = 29 then (p.SetWord ((p.memPtr : Int) - 1) p.r16b, [])
  else if op.code = 30 then (p.SetQWord ((p.memPtr : Int) - 1) p.r32a, [])
  else if op.code = 31 then (p.SetQWord ((p.memPtr : Int) - 1) p.r32b, [])
  else (p, [op])

/-- The internal opcode table of `Program.Op`: every other opcode value is
forwarded verbatim. -/
def internalOpcode (c : Nat) : Prop :=
  c = 0 ∨ c = 1 ∨ c = 2 ∨ (20 ≤ c ∧ c ≤ 31)

instance (c : Nat) : Decidable (internalOpcode c) := by
  unfold internalOpcode; infer_instance

/-- The `Op` constructed by the invoke instruction `'.'` in `Program.Run`:
opcode = current cell; arguments = the up to 8 bytes before the tape pointer,
copied to the FRONT of the 8-byte argument array (the source's FIXME: when
fewer than 8 bytes are available the zero padding sits at the END). -/
def Program.invokeOp (p : Program) : Op :=
  let argsStart := if p.memPtr < 8 then 0 else p.memPtr - 8
  let gathered := (p.memory.drop argsStart).take (p.memPtr - argsStart)
  { code := p.Byte (p.memPtr : Int)
    args := gathered ++ List.replicate (8 - gathered.length) 0 }

/-- One iteration of the `Program.Run` interpreter loop, including the final
`p.pc++`. The `optimizeClear` flag selects whether the `"[-]"` special case in
the `'['` arm is active (`true` = the source; `false` = executing the clear
idiom literally, the comparison point of the observational-equivalence claim).
Returns the new state and the ops forwarded during the iteration. -/
def stepCore (optimizeClear : Bool) (p : Program) : Program × List Op :=
  let instr := p.memory.getD p.pc 0
  if instr = 62 then
    let r := runLen p.memory 62 p.pc
    ({ Program.Right^[r] p with pc := p.pc + r }, [])
  else if instr = 60 then
    let r := runLen p.memory 60 p.pc
    ({ Program.Left^[r] p with pc := p.pc + r }, [])
  else if instr = 43 then
    let amt := runLen p.memory 43 p.pc
    let newVal := AddRolling (p.Byte (p.memPtr : Int)) (amt : Int) 255
    ({ p.SetByte (p.memPtr : Int) ((newVal.emod 256).toNat) with pc := p.pc + amt }, [])
  else if instr = 45 then
    let amt := runLen p.memory 45 p.pc
    let newVal := SubRolling (p.Byte (p.memPtr : Int)) (amt : Int) 255
    ({ p.SetByte (p.memPtr : Int) ((newVal.emod 256).toNat) with pc := p.pc + amt }, [])
  else if instr = 91 then
    if optimizeClear ∧ (p.memory.drop p.pc).take 3 = [91, 45, 93] then
      ({ p.SetByte (p.memPtr : Int) 0 with pc := p.pc + 2 + 1 }, [])
    else if p.Byte (p.memPtr : Int) = 0 then
      ({ p with pc := jumpToCloseLoop p.memory p.pc + 1 }, [])
    else ({ p with pc := p.pc + 1 }, [])
  else if instr = 93 then
    if p.Byte (p.memPtr : Int) ≠ 0 then
      ({ p with pc := jumpToOpenLoop p.memory p.pc + 1 }, [])
    else ({ p with pc := p.pc + 1 }, [])
  else if instr = 46 then
    let res := p.opDispatch p.invokeOp
    ({ res.1 with pc := res.1.pc + 1 }, res.2)
  else ({ p with pc := p.pc + 1 }, [])

/-- Fuel-indexed iteration of the `Program.Run` loop: stop at a zero
instruction byte (normal termination) or when the fuel runs out. -/
def runCore (optimizeClear : Bool) : Nat → Program → Program × List Op
  | 0, p => (p, [])
  | fuel + 1, p =>
    if p.memory.getD p.pc 0 = 0 then (p, [])
    else
      let s := stepCore optimizeClear p
      let rest := runCore optimizeClear fuel s.1
      (rest.1, s.2 ++ rest.2)

/-- One iteration of `Program.Run` as in the source. -/
def Program.step (p : Program) : Program × List Op :=
  stepCore true p

/-- Go `Program.Run` up to `fuel` iterations (the source loops until a zero
byte; every terminating run is reproduced by a large enough fuel). -/
def Program.runFuel (fuel : Nat) (p : Program) : Program × List Op :=
  runCore true fuel p

/-- The interpreter loop with the `"[-]"` special case disabled: executing the
clear idiom literally. Used only to state observational equivalence with
`Program.step`. -/
def runLiteral (fuel : Nat) (p : Program) : Program × List Op :=
  runCore false fuel p

/-- Go `Program.Run` including the empty-memory check. -/
def Program.Run (fuel : Nat) (p : Program) : Except VMError (Program × List Op) :=
  if p.memory.length = 0 then Except.error VMError.noMemory
  else Except.ok (p.runFuel fuel)

/-!
The assembly-to-brainfuck code generator (Go `gen` and friends).

`strings.Builder` is modelled as the `String` built so far; the
`for range n { WriteRune c }` loops appear as appending `n` copies of `c`.
Generator panics (operand-kind mismatch, undefined identifier, loop-stack
underflow, duplicate const, unknown instruction) are modelled as `none`.
-/

/-- Expressions of the assembly language (Go `exprId`, `exprInt`, `exprAddr`). -/
inductive Expr where
  | exprId (s : String)
  | exprInt (n : Int)
  | exprAddr (e : Expr)
deriving DecidableEq

/-- Go `expr.int(lookup)`: identifiers resolve through `lookup` and recurse;
integer literals evaluate to themselves; evaluating an `exprAddr` directly
panics (`none`). The fuel bounds the identifier-chain depth (a cyclic `const`
table makes the Go recursion diverge). -/
def Expr.int (lookup : String → Option Expr) : Nat → Expr → Option Int
  | 0, _ => none
  | _ + 1, Expr.exprInt n => some n
  | fuel + 1, Expr.exprId s =>
    match lookup s with
    | none => none
    | some e => Expr.int lookup fuel e
  | _ + 1, Expr.exprAddr _ => none

/-- One parsed instruction statement (Go `stmtInstr`): a lowercase name and up
to two operand expressions. -/
structure StmtInstr where
  name : String
  dst : Option Expr
  src : Option Expr
deriving DecidableEq

/-- Generator state (Go `gen`): emitted text, virtual cursor, pending label,
label/constant table, and the loop-start stack (top at the end of the list,
matching Go's append/pop-at-end slice usage). -/
structure Gen where
  sb : String
  ptr : Int
  label : String
  labelTable : List (String × Expr)
  loopStarts : List Int
deriving DecidableEq

/-- Go `gen.point`: emit `|at - ptr|` movement markers, `'<'` when the target
is left of the cursor and `'>'` otherwise, then set the cursor. -/
def Gen.point (g : Gen) (at_ : Int) : Gen :=
  let diff := at_ - g.ptr
  let s := if diff < 0 then String.mk (List.replicate (-diff).toNat '<')
           else String.mk (List.replicate diff.toNat '>')
  { g with sb := g.sb ++ s, ptr := at_ }

/-- Go `gen.pushLoopStart`. -/
def Gen.pushLoopStart (g : Gen) (ptr : Int) : Gen :=
  { g with loopStarts := g.loopStarts ++ [ptr] }

/-- Go `gen.popLoopStart`: return the top saved cursor and the popped state;
`none` models the Go panic (index out of range) on an empty stack. -/
def Gen.popLoopStart (g : Gen) : Option (Int × Gen) :=
  match g.loopStarts.getLast? with
  | none => none
  | some start => some (start, { g with loopStarts := g.loopStarts.dropLast })

/-- Go `gen.loopStart`: save the cursor, emit `'['`. -/
def Gen.loopStart (g : Gen) : Gen :=
  let g1 := g.pushLoopStart g.ptr
  { g1 with sb := g1.sb.push '[' }

/-- Go `gen.loopEnd`: pop the saved cursor, move back there, emit `']'`. -/
def Gen.loopEnd (g : Gen) : Option Gen :=
  match g.popLoopStart with
  | none => none
  | some (start, g1) =>
    let g2 := g1.point start
    some { g2 with sb := g2.sb.push ']' }

/-- Go `gen.lookup` over the label/constant table. -/
def Gen.lookup (g : Gen) (id : String) : Option Expr :=
  (g.labelTable.find? (fun kv => kv.1 == id)).map (fun kv => kv.2)

/-- Go `gen.instr`: generate code for one instruction statement. `none` models
the panics. The fuel is passed to expression evaluation. -/
def Gen.instr (fuel : Nat) (g : Gen) (i : StmtInstr) : Option Gen :=
  if i.name = "inc" then
    match i.dst with
    | some (Expr.exprAddr e) =>
      match Expr.int g.lookup fuel e with
      | none => none
      | some v =>
        let g1 := g.point v
        let times : Option Int :=
          match i.src with
          | none => some 1
          | some s => Expr.int g.lookup fuel s
        match times with
        | none => none
        | some t =>
          some { g1 with sb := g1.sb ++ String.mk (List.replicate t.toNat '+'), label := "" }
    | _ => none
  else if i.name = "dec" then
    match i.dst with
    | some (Expr.exprAddr e) =>
      match Expr.int g.lookup fuel e with
      | none => none
      | some v =>
        let g1 := g.point v
        let times : Option Int :=
          match i.src with
          | none => some 1
          | some s => Expr.int g.lookup fuel s
        match times with
        | none => none
        | some t =>
          some { g1 with sb := g1.sb ++ String.mk (List.replicate t.toNat '-'), label := "" }
    | _ => none
  else if i.name = "while" then
    match i.dst with
    | some (Expr.exprAddr e) =>
      match Expr.int g.lookup fuel e with
      | none => none
      | some v => some { (g.point v).loopStart with label := "" }
    | _ => none
  else if i.name = "endwhile" then
    match i.dst with
    | some (Expr.exprAddr e) =>
      match Expr.int g.lookup fuel e with
      | none => none
      | some v =>
        match g.popLoopStart with
        | none => none
        | some (_, g1) =>
          let g2 := g1.point v
          some { g2 with sb := g2.sb.push ']', label := "" }
    | _ =>
      match g.loopEnd with
      | none => none
      | some g1 => some { g1 with label := "" }
  else if i.name = "call" then
    match i.dst with
    | some (Expr.exprAddr e) =>
      match Expr.int g.lookup fuel e with
      | none => none
      | some v => some { (g.point v) with sb := (g.point v).sb.push '.', label := "" }
    | _ => none
  else if i.name = "read" then
    match i.dst with
    | some (Expr.exprAddr e) =>
      match Expr.int g.lookup fuel e with
      | none => none
      | some v => some { (g.point v) with sb := (g.point v).sb.push ',', label := "" }
    | _ => none
  else if i.name = "clear" then
    match i.dst with
    | some (Expr.exprAddr e) =>
      match Expr.int g.lookup fuel e with
      | none => none
      | some v => some { (g.point v) with sb := (g.point v).sb ++ "[-]", label := "" }
    | _ => none
  else if i.name = "if" then
    match i.dst with
    | some (Expr.exprAddr ce) =>
      match Expr.int g.lookup fuel ce with
      | none => none
      | some condPtr =>
        match i.src with
        | some (Expr.exprAddr je) =>
          match Expr.int g.lookup fuel je with
          | none => none
          | some junkPtr =>
            let g1 := g.point junkPtr
            let g2 := { g1 with sb := g1.sb ++ "[-]+" }
            let g3 := (g2.point condPtr).pushLoopStart condPtr
            let g4 := g3.pushLoopStart junkPtr
            let g5 := { g4 with sb := g4.sb.push '[' }
            let g6 := { g5 with sb := g5.sb ++ "[-]" }
            let g7 := g6.point junkPtr
            some { g7 with sb := g7.sb ++ "[-]", label := "" }
        | _ => none
    | _ => none
  else if i.name = "else" then
    match g.popLoopStart with
    | none => none
    | some (junkPtr, g1) =>
      match g1.popLoopStart with
      | none => none
      | some (condPtr, g2) =>
        let g3 := g2.point condPtr
        let g4 := { g3 with sb := g3.sb.push ']' }
        let g5 := g4.point junkPtr
        let g6 := { g5 with sb := g5.sb.push '[' }
        some { (g6.pushLoopStart condPtr).pushLoopStart junkPtr with label := "" }
  else if i.name = "endif" then
    match g.popLoopStart with
    | none => none
    | some (_, g1) =>
      match g1.popLoopStart with
      | none => none
      | some (condPtr, g2) =>
        let g3 := g2.point condPtr
        some { g3 with sb := g3.sb.push ']', label := "" }
  else if i.name = "const" then
    if i.dst.isNone ∨ i.src.isSome then none
    else if g.label = "" then none
    else if (g.labelTable.find? (fun kv => kv.1 == g.label)).isSome then none
    else
      match i.dst with
      | some value => some { g with labelTable := (g.label, value) :: g.labelTable, label := "" }
      | none => none
  else none

/-- The movement run emitted by `gen.point` starting from cursor 0: `|a|` step
markers, all `'<'` for a negative target and all `'>'` otherwise. -/
def moveString (a : Int) : String :=
  if a < 0 then String.mk (List.replicate (-a).toNat '<')
  else String.mk (List.replicate a.toNat '>')

/-! Helper lemmas about `List.getD`-based memory access. -/

theorem listGetD_append_left (l1 l2 : List Nat) :
    ∀ n, n < l1.length → (l1 ++ l2).getD n 0 = l1.getD n 0 := by
  induction l1 with
  | nil => intro n h; simp at h
  | cons a t ih =>
    intro n h
    cases n with
    | zero => rfl
    | succ m => simpa using ih m (by simpa using h)

theorem listGetD_append_right (l1 l2 : List Nat) :
    ∀ n, l1.length ≤ n → (l1 ++ l2).getD n 0 = l2.getD (n - l1.length) 0 := by
  induction l1 with
  | nil => intro n _; simp
  | cons a t ih =>
    intro n h
    cases n with
    | zero => simp at h
    | succ m => simpa using ih m (by simpa using h)

theorem listGetD_replicate (m n : Nat) : (List.replicate m (0 : Nat)).getD n 0 = 0 := by
  induction m generalizing n with
  | zero => rfl
  | succ k ih =>
    cases n with
    | zero => rfl
    | succ j => simp [List.replicate, ih j]

theorem listGetD_drop (l : List Nat) :
    ∀ n m, (l.drop n).getD m 0 = l.getD (n + m) 0 := by
  induction l with
  | nil => intro n m; simp
  | cons a t ih =>
    intro n m
    cases n with
    | zero => simp
    | succ k => simp [Nat.succ_add, ih k m]

theorem listGetD_take_lt (l : List Nat) :
    ∀ n m, m < n → (l.take n).getD m 0 = l.getD m 0 := by
  induction l with
  | nil => intro n m _; simp
  | cons a t ih =>
    intro n m h
    cases n with
    | zero => omega
    | succ k =>
      cases m with
      | zero => rfl
      | succ j => simpa using ih k j (by omega)

theorem listGetD_set_self (l : List Nat) :
    ∀ i v, i < l.length → (l.set i v).getD i 0 = v := by
  induction l with
  | nil => intro i v h; simp at h
  | cons a t ih =>
    intro i v h
    cases i with
    | zero => rfl
    | succ j => simpa using ih j v (by simpa using h)

theorem listGetD_set_ne (l : List Nat) :
    ∀ i j v, i ≠ j → (l.set i v).getD j 0 = l.getD j 0 := by
  induction l with
  | nil => intro i j v _; simp
  | cons a t ih =>
    intro i j v h
    cases i with
    | zero =>
      cases j with
      | zero => exact absurd rfl h
      | succ m => rfl
    | succ k =>
      cases j with
      | zero => rfl
      | succ m => simpa using ih k m v (by omega)

theorem listSet_getD_same (l : List Nat) :
    ∀ i, l.set i (l.getD i 0) = l := by
  induction l with
  | nil => intro i; rfl
  | cons a t ih =>
    intro i
    cases i with
    | zero => rfl
    | succ j => simpa using ih j

theorem listGetD_pos_lt (l : List Nat) :
    ∀ i, l.getD i 0 ≠ 0 → i < l.length := by
  induction l with
  | nil => intro i h; simp at h
  | cons a t ih =>
    intro i h
    cases i with
    | zero => simp
    | succ j => simpa using ih j (by simpa using h)

theorem listGetD_lt_bound (l : List Nat) (hl : ∀ b ∈ l, b < 256) :
    ∀ i, l.getD i 0 < 256 := by
  induction l with
  | nil => intro i; simp
  | cons a t ih =>
    intro i
    cases i with
    | zero => exact hl a (by simp)
    | succ j =>
      exact (by simpa using ih (fun b hb => hl b (by simp [hb])) j)

/-! Arithmetic helpers for the wrapping byte arithmetic and the register
encodings. -/

theorem int_emod_eq_mod (a b : Int) : a.emod b = a % b := rfl

theorem addRolling_value (old k : Nat) :
    ((AddRolling (old : Int) (k : Int) 255).emod 256).toNat = (old + k) % 255 := by
  unfold AddRolling
  have h : (old : Int) + (k : Int) = ((old + k : Nat) : Int) := by push_cast; ring
  rw [h, Int.tmod_eq_emod (by positivity) (by norm_num), int_emod_eq_mod]
  omega

theorem subRolling_dec (w : Nat) (h1 : 1 ≤ w) (h2 : w ≤ 255) :
    ((SubRolling (w : Int) 1 255).emod 256).toNat = w - 1 := by
  unfold SubRolling
  have h : (w : Int) - 1 = ((w - 1 : Nat) : Int) := by omega
  rw [h, Int.tmod_eq_emod (by positivity) (by norm_num), int_emod_eq_mod]
  omega

theorem lor_eq_add_of_lt (k a b : Nat) (hb : b < 2 ^ k) :
    (2 ^ k * a) ||| b = 2 ^ k * a + b :=
  (Nat.mul_add_lt_is_or hb a).symm

theorem word_eq (a b : Nat) (hb : b < 256) :
    a <<< 8 ||| b = a * 256 + b := by
  rw [Nat.shiftLeft_eq, Nat.mul_comm a (2 ^ 8),
      lor_eq_add_of_lt 8 a b (by norm_num; omega)]

theorem qword_eq (b3 b2 b1 b0 : Nat)
    (h2 : b2 < 256) (h1 : b1 < 256) (h0 : b0 < 256) :
    ((b3 <<< 24 ||| b2 <<< 16) ||| b1 <<< 8) ||| b0 =
      b3 * 16777216 + b2 * 65536 + b1 * 256 + b0 := by
  rw [Nat.shiftLeft_eq, Nat.shiftLeft_eq, Nat.shiftLeft_eq]
  have e1 : b3 * 2 ^ 24 ||| b2 * 2 ^ 16 = b3 * 2 ^ 24 + b2 * 2 ^ 16 := by
    rw [Nat.mul_comm b3 (2 ^ 24), lor_eq_add_of_lt 24 b3 (b2 * 2 ^ 16) (by norm_num; omega)]
  rw [e1]
  have e2 : b3 * 2 ^ 24 + b2 * 2 ^ 16 = 2 ^ 16 * (b3 * 256 + b2) := by ring
  have e3 : (b3 * 2 ^ 24 + b2 * 2 ^ 16) ||| b1 * 2 ^ 8 =
      b3 * 2 ^ 24 + b2 * 2 ^ 16 + b1 * 2 ^ 8 := by
    rw [e2, lor_eq_add_of_lt 16 (b3 * 256 + b2) (b1 * 2 ^ 8) (by norm_num; omega)]
  rw [e3]
  have e4 : b3 * 2 ^ 24 + b2 * 2 ^ 16 + b1 * 2 ^ 8 =
      2 ^ 8 * ((b3 * 256 + b2) * 256 + b1) := by ring
  rw [e4, lor_eq_add_of_lt 8 ((b3 * 256 + b2) * 256 + b1) b0 (by norm_num; omega)]
  ring

/-! Characterization of `runLen` (fuel irrelevance once the fuel covers the
remaining memory) and evaluation lemmas for the bracket scans. -/

/-- Unfolding equation for `runLenAux` at zero fuel. -/
theorem runLenAux_zero_fuel (mem : List Nat) (c i : Nat) :
    runLenAux mem c 0 i = 0 := rfl

/-- Unfolding equation for `runLenAux` at positive fuel. -/
theorem runLenAux_succ (mem : List Nat) (c fuel i : Nat) :
    runLenAux mem c (fuel + 1) i =
      if mem.getD i 0 = c then runLenAux mem c fuel (i + 1) + 1 else 0 := rfl

theorem runLenAux_stable (mem : List Nat) (c : Nat) (hc : c ≠ 0) :
    ∀ f1, ∀ f2 i, mem.length ≤ i + f1 → mem.length ≤ i + f2 →
      runLenAux mem c f1 i = runLenAux mem c f2 i := by
  intro f1
  induction f1 with
  | zero =>
    intro f2 i h1 _
    have hz : mem.getD i 0 = 0 := by
      simp [List.getD_eq_getElem?_getD, List.getElem?_eq_none (by omega : mem.length ≤ i)]
    cases f2 with
    | zero => rfl
    | succ f =>
      rw [runLenAux_zero_fuel, runLenAux_succ, if_neg (by rw [hz]; exact Ne.symm hc)]
  | succ f ih =>
    intro f2 i h1 h2
    cases f2 with
    | zero =>
      have hz : mem.getD i 0 = 0 := by
        simp [List.getD_eq_getElem?_getD, List.getElem?_eq_none (by omega : mem.length ≤ i)]
      rw [runLenAux_zero_fuel, runLenAux_succ, if_neg (by rw [hz]; exact Ne.symm hc)]
    | succ f2' =>
      by_cases h : mem.getD i 0 = c
      · rw [runLenAux_succ, runLenAux_succ, if_pos h, if_pos h,
            ih f2' (i + 1) (by omega) (by omega)]
      · rw [runLenAux_succ, runLenAux_succ, if_neg h, if_neg h]

theorem runLen_succ (mem : List Nat) (c i : Nat) (hc : c ≠ 0)
    (h : mem.getD i 0 = c) : runLen mem c i = runLen mem c (i + 1) + 1 := by
  unfold runLen
  rw [runLenAux_succ, if_pos h]
  have hi : i < mem.length := listGetD_pos_lt mem i (by rw [h]; exact hc)
  rw [runLenAux_stable mem c hc mem.length (mem.length + 1) (i + 1) (by omega) (by omega)]

theorem runLen_zero (mem : List Nat) (c i : Nat) (h : mem.getD i 0 ≠ c) :
    runLen mem c i = 0 := by
  unfold runLen
  rw [runLenAux_succ, if_neg h]

/-- Unfolding equation for one forward-scan iteration. -/
theorem jctAux_succ (mem : List Nat) (fuel pc : Nat) (depth : Int) :
    jctAux mem (fuel + 1) pc depth =
      (if mem.getD pc 0 = 0 then pc
       else if mem.getD pc 0 = 91 then jctAux mem fuel (pc + 1) (depth + 1)
       else if mem.getD pc 0 = 93 then
         if depth - 1 ≤ 0 then pc else jctAux mem fuel (pc + 1) (depth - 1)
       else jctAux mem fuel (pc + 1) depth) := rfl

/-- Forward bracket scan over the clear idiom `"[-]"`: from the `'['` the scan
stops at the `']'` two bytes later. -/
theorem jumpToCloseLoop_clear (mem : List Nat) (pc : Nat)
    (h0 : mem.getD pc 0 = 91) (h1 : mem.getD (pc + 1) 0 = 45)
    (h2 : mem.getD (pc + 2) 0 = 93) :
    jumpToCloseLoop mem pc = pc + 2 := by
  unfold jumpToCloseLoop
  have hlt : pc + 2 < mem.length := listGetD_pos_lt mem (pc + 2) (by rw [h2]; omega)
  obtain ⟨f, hf⟩ : ∃ f, mem.length + 1 = f + 3 := ⟨mem.length - 2, by omega⟩
  rw [hf, show f + 3 = (f + 2) + 1 from rfl, jctAux_succ, h0]
  norm_num
  rw [show f + 2 = (f + 1) + 1 from rfl, jctAux_succ, h1]
  norm_num
  rw [show pc + 1 + 1 = pc + 2 from rfl, jctAux_succ, h2]
  norm_num

/-- Unfolding equation for one backward-scan iteration. -/
theorem jolAux_succ (mem : List Nat) (fuel pc : Nat) (depth : Int) :
    jolAux mem (fuel + 1) pc depth =
      (if mem.getD pc 0 = 0 then pc
       else if mem.getD pc 0 = 93 then
         if pc = 0 then 0 else jolAux mem fuel (pc - 1) (depth + 1)
       else if mem.getD pc 0 = 91 then
         if depth - 1 ≤ 0 then pc
         else if pc = 0 then 0 else jolAux mem fuel (pc - 1) (depth - 1)
       else if pc = 0 then 0 else jolAux mem fuel (pc - 1) depth) := rfl

/-- Backward bracket scan over the clear idiom: from the `']'` at `pc + 2` the
scan stops at the `'['` at `pc`. -/
theorem jumpToOpenLoop_clear (mem : List Nat) (pc : Nat)
    (h0 : mem.getD pc 0 = 91) (h1 : mem.getD (pc + 1) 0 = 45)
    (h2 : mem.getD (pc + 2) 0 = 93) :
    jumpToOpenLoop mem (pc + 2) = pc := by
  unfold jumpToOpenLoop
  have s3 : jolAux mem (pc + 2) pc 1 = pc := by
    rw [show pc + 2 = (pc + 1) + 1 from rfl, jolAux_succ, h0]
    norm_num
  have s2 : jolAux mem (pc + 3) (pc + 1) 1 = pc := by
    rw [show pc + 3 = (pc + 2) + 1 from rfl, jolAux_succ, h1]
    norm_num
    exact s3
  rw [show pc + 2 + 2 = (pc + 3) + 1 from rfl, jolAux_succ, h2]
  norm_num
  exact s2

/-! Pointer-motion helpers. -/

theorem right_eval (p : Program) (h : p.memPtr + 1 < p.memory.length) :
    p.Right = { p with memPtr := p.memPtr + 1 } := by
  unfold Program.Right
  rw [if_neg (by omega)]

theorem left_eval (p : Program) (h : p.memPtr ≠ 0) :
    p.Left = { p with memPtr := p.memPtr - 1 } := by
  unfold Program.Left
  rw [if_neg h]

theorem right_iterate (r : Nat) :
    ∀ p : Program, p.memPtr + r < p.memory.length →
      Program.Right^[r] p = { p with memPtr := p.memPtr + r } := by
  induction r with
  | zero => intro p _; simp
  | succ k ih =>
    intro p h
    rw [Function.iterate_succ_apply, right_eval p (by omega)]
    rw [ih { p with memPtr := p.memPtr + 1 }
        (show p.memPtr + 1 + k < p.memory.length by omega)]
    rw [show p.memPtr + 1 + k = p.memPtr + (k + 1) by omega]

theorem left_iterate (r : Nat) :
    ∀ p : Program, r ≤ p.memPtr →
      Program.Left^[r] p = { p with memPtr := p.memPtr - r } := by
  induction r with
  | zero => intro p _; simp
  | succ k ih =>
    intro p h
    rw [Function.iterate_succ_apply, left_eval p (by omega)]
    rw [ih { p with memPtr := p.memPtr - 1 } (show k ≤ p.memPtr - 1 by omega)]
    rw [show p.memPtr - 1 - k = p.memPtr - (k + 1) by omega]

theorem stepCore_gt (b : Bool) (p : Program) (h : p.memory.getD p.pc 0 = 62) :
    stepCore b p =
      ({ Program.Right^[runLen p.memory 62 p.pc] p with
          pc := p.pc + runLen p.memory 62 p.pc }, []) := by
  simp only [stepCore]
  rw [h]
  norm_num

theorem stepCore_plus (b : Bool) (p : Program) (h : p.memory.getD p.pc 0 = 43) :
    stepCore b p =
      ({ p with
          memory := p.memory.set p.memPtr
            (((AddRolling (p.memory.getD p.memPtr 0 : Int)
                (runLen p.memory 43 p.pc : Int) 255).emod 256).toNat)
          pc := p.pc + runLen p.memory 43 p.pc }, []) := by
  simp only [stepCore]
  rw [h]
  norm_num [Program.SetByte, Program.Byte, Int.toNat_natCast]

theorem stepCore_lt (b : Bool) (p : Program) (h : p.memory.getD p.pc 0 = 60) :
    stepCore b p =
      ({ Program.Left^[runLen p.memory 60 p.pc] p with
          pc := p.pc + runLen p.memory 60 p.pc }, []) := by
  simp only [stepCore]
  rw [h]
  norm_num

theorem stepCore_minus (b : Bool) (p : Program) (h : p.memory.getD p.pc 0 = 45) :
    stepCore b p =
      ({ p with
          memory := p.memory.set p.memPtr
            (((SubRolling (p.memory.getD p.memPtr 0 : Int)
                (runLen p.memory 45 p.pc : Int) 255).emod 256).toNat)
          pc := p.pc + runLen p.memory 45 p.pc }, []) := by
  simp only [stepCore]
  rw [h]
  norm_num [Program.SetByte, Program.Byte, Int.toNat_natCast]

theorem stepCore_open_clear (p : Program) (h : p.memory.getD p.pc 0 = 91)
    (hguard : (p.memory.drop p.pc).take 3 = [91, 45, 93]) :
    stepCore true p =
      ({ p with memory := p.memory.set p.memPtr 0, pc := p.pc + 3 }, []) := by
  simp only [stepCore]
  rw [h, hguard]
  norm_num [Program.SetByte, Int.toNat_natCast]

theorem stepCore_open_zero (b : Bool) (p : Program) (h : p.memory.getD p.pc 0 = 91)
    (hguard : b = true → ¬(p.memory.drop p.pc).take 3 = [91, 45, 93])
    (hcell : p.memory.getD p.memPtr 0 = 0) :
    stepCore b p = ({ p with pc := jumpToCloseLoop p.memory p.pc + 1 }, []) := by
  simp only [stepCore]
  rw [h]
  simp only [List.getD_eq_getElem?_getD] at hcell
  cases b with
  | false =>
    norm_num [Program.Byte, Int.toNat_natCast, hcell]
  | true =>
    norm_num [Program.Byte, Int.toNat_natCast, hcell, hguard rfl]

theorem stepCore_open_pos (b : Bool) (p : Program) (h : p.memory.getD p.pc 0 = 91)
    (hguard : b = true → ¬(p.memory.drop p.pc).take 3 = [91, 45, 93])
    (hcell : p.memory.getD p.memPtr 0 ≠ 0) :
    stepCore b p = ({ p with pc := p.pc + 1 }, []) := by
  simp only [stepCore]
  rw [h]
  simp only [List.getD_eq_getElem?_getD] at hcell
  cases b with
  | false =>
    norm_num [Program.Byte, Int.toNat_natCast, hcell]
  | true =>
    norm_num [Program.Byte, Int.toNat_natCast, hcell, hguard rfl]

theorem stepCore_close_pos (b : Bool) (p : Program) (h : p.memory.getD p.pc 0 = 93)
    (hcell : p.memory.getD p.memPtr 0 ≠ 0) :
    stepCore b p = ({ p with pc := jumpToOpenLoop p.memory p.pc + 1 }, []) := by
  simp only [stepCore]
  rw [h]
  simp only [List.getD_eq_getElem?_getD] at hcell
  norm_num [Program.Byte, Int.toNat_natCast, hcell]

theorem stepCore_close_zero (b : Bool) (p : Program) (h : p.memory.getD p.pc 0 = 93)
    (hcell : p.memory.getD p.memPtr 0 = 0) :
    stepCore b p = ({ p with pc := p.pc + 1 }, []) := by
  simp only [stepCore]
  rw [h]
  simp only [List.getD_eq_getElem?_getD] at hcell
  norm_num [Program.Byte, Int.toNat_natCast, hcell]

theorem stepCore_invoke (b : Bool) (p : Program) (h : p.memory.getD p.pc 0 = 46) :
    stepCore b p =
      ({ (p.opDispatch p.invokeOp).1 with pc := (p.opDispatch p.invokeOp).1.pc + 1 },
        (p.opDispatch p.invokeOp).2) := by
  simp only [stepCore]
  rw [h]
  norm_num

theorem stepCore_other (b : Bool) (p : Program)
    (h62 : p.memory.getD p.pc 0 ≠ 62) (h60 : p.memory.getD p.pc 0 ≠ 60)
    (h43 : p.memory.getD p.pc 0 ≠ 43) (h45 : p.memory.getD p.pc 0 ≠ 45)
    (h91 : p.memory.getD p.pc 0 ≠ 91) (h93 : p.memory.getD p.pc 0 ≠ 93)
    (h46 : p.memory.getD p.pc 0 ≠ 46) :
    stepCore b p = ({ p with pc := p.pc + 1 }, []) := by
  simp only [stepCore]
  rw [if_neg h62, if_neg h60, if_neg h43, if_neg h45, if_neg h91, if_neg h93, if_neg h46]

/-- Unfolding equation for `runCore` at positive fuel. -/
theorem runCore_succ (b : Bool) (fuel : Nat) (p : Program) :
    runCore b (fuel + 1) p =
      (if p.memory.getD p.pc 0 = 0 then (p, [])
       else
         ((runCore b fuel (stepCore b p).1).1,
           (stepCore b p).2 ++ (runCore b fuel (stepCore b p).1).2)) := rfl

/-- Compute a concrete run length from pointwise byte facts (avoids unfolding
the fuel, which is the memory length). -/
theorem runLen_eq_of (mem : List Nat) (c : Nat) (hc : c ≠ 0) :
    ∀ n i, (∀ j, j < n → mem.getD (i + j) 0 = c) → mem.getD (i + n) 0 ≠ c →
      runLen mem c i = n := by
  intro n
  induction n with
  | zero =>
    intro i _ hstop
    exact runLen_zero mem c i (by simpa using hstop)
  | succ k ih =>
    intro i hrun hstop
    rw [runLen_succ mem c i hc (by simpa using hrun 0 (by omega))]
    rw [ih (i + 1) (fun j hj => by
          have hj1 := hrun (j + 1) (by omega)
          rwa [show i + (j + 1) = i + 1 + j by omega] at hj1)
        (by rwa [show i + 1 + k = i + (k + 1) by omega])]

theorem runCore_step (b : Bool) (fuel : Nat) (p q : Program)
    (hnz : p.memory.getD p.pc 0 ≠ 0) (hs : stepCore b p = (q, [])) :
    runCore b (fuel + 1) p = runCore b fuel q := by
  rw [runCore_succ, if_neg hnz, hs]
  simp

theorem runCore_halt (b : Bool) (fuel : Nat) (p : Program)
    (hz : p.memory.getD p.pc 0 = 0) : runCore b (fuel + 1) p = (p, []) := by
  rw [runCore_succ, if_pos hz]

/-- Memory of the test program `">>>>+<-"` after load. -/
def mem1 : List Nat := [62, 62, 62, 62, 43, 60, 45] ++ List.replicate 30010 0

/-- The loaded test program `">>>>+<-"`. -/
def prog1 : Program := ⟨mem1, 17, 0, 0, 0, 0, 0, 0, 0, 17⟩

theorem mem1_len : mem1.length = 30017 := by
  unfold mem1
  rw [List.length_append, List.length_replicate]
  norm_num

theorem mem1_code : ∀ i, i < 7 → mem1.getD i 0 = [62, 62, 62, 62, 43, 60, 45].getD i 0 := by
  intro i hi
  unfold mem1
  exact listGetD_append_left _ _ i (by simpa using hi)

theorem mem1_data : ∀ i, 7 ≤ i → mem1.getD i 0 = 0 := by
  intro i hi
  unfold mem1
  rw [listGetD_append_right _ _ i (by simpa using hi)]
  exact listGetD_replicate _ _

theorem prog1_run :
    Program.runFuel 10 prog1 =
      (⟨(mem1.set 21 1).set 20 255, 17, 7, 0, 0, 0, 0, 0, 0, 20⟩, []) := by
  have g0 : mem1.getD 0 0 = 62 := (mem1_code 0 (by norm_num)).trans (by decide)
  have g1 : mem1.getD 1 0 = 62 := (mem1_code 1 (by norm_num)).trans (by decide)
  have g2 : mem1.getD 2 0 = 62 := (mem1_code 2 (by norm_num)).trans (by decide)
  have g3 : mem1.getD 3 0 = 62 := (mem1_code 3 (by norm_num)).trans (by decide)
  have g4 : mem1.getD 4 0 = 43 := (mem1_code 4 (by norm_num)).trans (by decide)
  have g5 : mem1.getD 5 0 = 60 := (mem1_code 5 (by norm_num)).trans (by decide)
  have g6 : mem1.getD 6 0 = 45 := (mem1_code 6 (by norm_num)).trans (by decide)
  have r0 : runLen mem1 62 0 = 4 := by
    refine runLen_eq_of mem1 62 (by norm_num) 4 0 (fun j hj => ?_) ?_
    · interval_cases j
      · simpa using g0
      · simpa using g1
      · simpa using g2
      · simpa using g3
    · simp only [Nat.zero_add]
      rw [g4]
      norm_num
  have s1 : stepCore true prog1 = (⟨mem1, 17, 4, 0, 0, 0, 0, 0, 0, 21⟩, []) := by
    rw [stepCore_gt true prog1 g0]
    simp only [prog1]
    rw [r0, right_iterate 4 _ (show (17 : Nat) + 4 < mem1.length by rw [mem1_len]; norm_num)]
  have r4 : runLen mem1 43 4 = 1 := by
    refine runLen_eq_of mem1 43 (by norm_num) 1 4 (fun j hj => ?_) ?_
    · interval_cases j
      simpa using g4
    · show mem1.getD (4 + 1) 0 ≠ 43
      rw [show (4 : Nat) + 1 = 5 from rfl, g5]
      norm_num
  have c21 : mem1.getD 21 0 = 0 := mem1_data 21 (by norm_num)
  have s2 : stepCore true (⟨mem1, 17, 4, 0, 0, 0, 0, 0, 0, 21⟩ : Program) =
      (⟨mem1.set 21 1, 17, 5, 0, 0, 0, 0, 0, 0, 21⟩, []) := by
    rw [stepCore_plus true _ g4]
    simp only [r4, c21]
    rw [show (((AddRolling ((0 : Nat) : Int) ((1 : Nat) : Int) 255).emod 256).toNat) = 1
          from by decide]
  have m2at5 : (mem1.set 21 1).getD 5 0 = 60 := by
    rw [listGetD_set_ne mem1 21 5 1 (by norm_num), g5]
  have m2at6 : (mem1.set 21 1).getD 6 0 = 45 := by
    rw [listGetD_set_ne mem1 21 6 1 (by norm_num), g6]
  have m2at7 : (mem1.set 21 1).getD 7 0 = 0 := by
    rw [listGetD_set_ne mem1 21 7 1 (by norm_num)]
    exact mem1_data 7 (by norm_num)
  have r5 : runLen (mem1.set 21 1) 60 5 = 1 := by
    refine runLen_eq_of _ 60 (by norm_num) 1 5 (fun j hj => ?_) ?_
    · interval_cases j
      simpa using m2at5
    · show (mem1.set 21 1).getD (5 + 1) 0 ≠ 60
      rw [show (5 : Nat) + 1 = 6 from rfl, m2at6]
      norm_num
  have s3 : stepCore true (⟨mem1.set 21 1, 17, 5, 0, 0, 0, 0, 0, 0, 21⟩ : Program) =
      (⟨mem1.set 21 1, 17, 6, 0, 0, 0, 0, 0, 0, 20⟩, []) := by
    rw [stepCore_lt true _ m2at5]
    simp only [r5]
    rw [left_iterate 1 _ (show (1 : Nat) ≤ 21 by norm_num)]
    norm_num
  have r6 : runLen (mem1.set 21 1) 45 6 = 1 := by
    refine runLen_eq_of _ 45 (by norm_num) 1 6 (fun j hj => ?_) ?_
    · interval_cases j
      simpa using m2at6
    · show (mem1.set 21 1).getD (6 + 1) 0 ≠ 45
      rw [show (6 : Nat) + 1 = 7 from rfl, m2at7]
      norm_num
  have c20 : (mem1.set 21 1).getD 20 0 = 0 := by
    rw [listGetD_set_ne mem1 21 20 1 (by norm_num)]
    exact mem1_data 20 (by norm_num)
  have s4 : stepCore true (⟨mem1.set 21 1, 17, 6, 0, 0, 0, 0, 0, 0, 20⟩ : Program) =
      (⟨(mem1.set 21 1).set 20 255, 17, 7, 0, 0, 0, 0, 0, 0, 20⟩, []) := by
    rw [stepCore_minus true _ m2at6]
    simp only [r6, c20]
    rw [show (((SubRolling ((0 : Nat) : Int) ((1 : Nat) : Int) 255).emod 256).toNat) = 255
          from by decide]
  have hz : ((mem1.set 21 1).set 20 255).getD 7 0 = 0 := by
    rw [listGetD_set_ne _ 20 7 255 (by norm_num), m2at7]
  have hnz1 : prog1.memory.getD prog1.pc 0 ≠ 0 := by
    show mem1.getD 0 0 ≠ 0
    rw [g0]; norm_num
  have hnz2 : (⟨mem1, 17, 4, 0, 0, 0, 0, 0, 0, 21⟩ : Program).memory.getD 4 0 ≠ 0 := by
    show mem1.getD 4 0 ≠ 0
    rw [g4]; norm_num
  have hnz3 : (⟨mem1.set 21 1, 17, 5, 0, 0, 0, 0, 0, 0, 21⟩ : Program).memory.getD 5 0 ≠ 0 := by
    show (mem1.set 21 1).getD 5 0 ≠ 0
    rw [m2at5]; norm_num
  have hnz4 : (⟨mem1.set 21 1, 17, 6, 0, 0, 0, 0, 0, 0, 20⟩ : Program).memory.getD 6 0 ≠ 0 := by
    show (mem1.set 21 1).getD 6 0 ≠ 0
    rw [m2at6]; norm_num
  show runCore true 10 prog1 = _
  rw [show (10 : Nat) = 9 + 1 from rfl, runCore_step true 9 prog1 _ hnz1 s1,
      show (9 : Nat) = 8 + 1 from rfl, runCore_step true 8 _ _ hnz2 s2,
      show (8 : Nat) = 7 + 1 from rfl, runCore_step true 7 _ _ hnz3 s3,
      show (7 : Nat) = 6 + 1 from rfl, runCore_step true 6 _ _ hnz4 s4,
      runCore_halt true 5 _ hz]

theorem prog1_cells :
    ((Program.runFuel 10 prog1).1.DataSection.getD 0 0,
     (Program.runFuel 10 prog1).1.DataSection.getD 1 0,
     (Program.runFuel 10 prog1).1.DataSection.getD 2 0,
     (Program.runFuel 10 prog1).1.DataSection.getD 3 0,
     (Program.runFuel 10 prog1).1.DataSection.getD 4 0) = (0, 0, 0, 255, 1) ∧
    (Program.runFuel 10 prog1).2 = [] := by
  rw [prog1_run]
  refine ⟨?_, rfl⟩
  show ((((mem1.set 21 1).set 20 255).drop 17).getD 0 0,
        (((mem1.set 21 1).set 20 255).drop 17).getD 1 0,
        (((mem1.set 21 1).set 20 255).drop 17).getD 2 0,
        (((mem1.set 21 1).set 20 255).drop 17).getD 3 0,
        (((mem1.set 21 1).set 20 255).drop 17).getD 4 0) = (0, 0, 0, 255, 1)
  rw [listGetD_drop, listGetD_drop, listGetD_drop, listGetD_drop, listGetD_drop,
      show (17 : Nat) + 0 = 17 from rfl, show (17 : Nat) + 1 = 18 from rfl,
      show (17 : Nat) + 2 = 19 from rfl, show (17 : Nat) + 3 = 20 from rfl,
      show (17 : Nat) + 4 = 21 from rfl]
  have e17 : ((mem1.set 21 1).set 20 255).getD 17 0 = 0 := by
    rw [listGetD_set_ne _ 20 17 255 (by norm_num), listGetD_set_ne _ 21 17 1 (by norm_num)]
    exact mem1_data 17 (by norm_num)
  have e18 : ((mem1.set 21 1).set 20 255).getD 18 0 = 0 := by
    rw [listGetD_set_ne _ 20 18 255 (by norm_num), listGetD_set_ne _ 21 18 1 (by norm_num)]
    exact mem1_data 18 (by norm_num)
  have e19 : ((mem1.set 21 1).set 20 255).getD 19 0 = 0 := by
    rw [listGetD_set_ne _ 20 19 255 (by norm_num), listGetD_set_ne _ 21 19 1 (by norm_num)]
    exact mem1_data 19 (by norm_num)
  have e20 : ((mem1.set 21 1).set 20 255).getD 20 0 = 255 := by
    rw [listGetD_set_self _ 20 255 (by rw [List.length_set, mem1_len]; norm_num)]
  have e21 : ((mem1.set 21 1).set 20 255).getD 21 0 = 1 := by
    rw [listGetD_set_ne _ 20 21 255 (by norm_num),
        listGetD_set_self _ 21 1 (by rw [mem1_len]; norm_num)]
  rw [e17, e18, e19, e20, e21]

/-- Memory of the test program `"+++++"` after load. -/
def mem2 : List Nat := [43, 43, 43, 43, 43] ++ List.replicate 30010 0

/-- The loaded test program `"+++++"`. -/
def prog2 : Program := ⟨mem2, 15, 0, 0, 0, 0, 0, 0, 0, 15⟩

theorem mem2_len : mem2.length = 30015 := by
  unfold mem2
  rw [List.length_append, List.length_replicate]
  norm_num

theorem mem2_code : ∀ i, i < 5 → mem2.getD i 0 = 43 := by
  intro i hi
  unfold mem2
  rw [listGetD_append_left _ _ i (by simpa using hi)]
  interval_cases i <;> rfl

theorem mem2_data : ∀ i, 5 ≤ i → mem2.getD i 0 = 0 := by
  intro i hi
  unfold mem2
  rw [listGetD_append_right _ _ i (by simpa using hi)]
  exact listGetD_replicate _ _

theorem prog2_run :
    Program.runFuel 10 prog2 = (⟨mem2.set 15 5, 15, 5, 0, 0, 0, 0, 0, 0, 15⟩, []) := by
  have r0 : runLen mem2 43 0 = 5 := by
    refine runLen_eq_of mem2 43 (by norm_num) 5 0 (fun j hj => ?_) ?_
    · exact mem2_code (0 + j) (by omega)
    · show mem2.getD (0 + 5) 0 ≠ 43
      rw [show (0 : Nat) + 5 = 5 from rfl, mem2_data 5 (by norm_num)]
      norm_num
  have c15 : mem2.getD 15 0 = 0 := mem2_data 15 (by norm_num)
  have s1 : stepCore true prog2 = (⟨mem2.set 15 5, 15, 5, 0, 0, 0, 0, 0, 0, 15⟩, []) := by
    rw [stepCore_plus true prog2 ((mem2_code 0 (by norm_num)).trans rfl)]
    simp only [prog2]
    rw [r0, c15,
        show (((AddRolling ((0 : Nat) : Int) ((5 : Nat) : Int) 255).emod 256).toNat) = 5
          from by decide]
  have hnz1 : prog2.memory.getD prog2.pc 0 ≠ 0 := by
    show mem2.getD 0 0 ≠ 0
    rw [mem2_code 0 (by norm_num)]
    norm_num
  have hz : (mem2.set 15 5).getD 5 0 = 0 := by
    rw [listGetD_set_ne mem2 15 5 5 (by norm_num)]
    exact mem2_data 5 (by norm_num)
  show runCore true 10 prog2 = _
  rw [show (10 : Nat) = 9 + 1 from rfl, runCore_step true 9 prog2 _ hnz1 s1,
      runCore_halt true 8 _ hz]

theorem prog2_cells :
    (Program.runFuel 10 prog2).1.DataSection.getD 0 0 = 5 ∧
    (Program.runFuel 10 prog2).2 = [] := by
  rw [prog2_run]
  refine ⟨?_, rfl⟩
  show ((mem2.set 15 5).drop 15).getD 0 0 = 5
  rw [listGetD_drop, show (15 : Nat) + 0 = 15 from rfl,
      listGetD_set_self mem2 15 5 (by rw [mem2_len]; norm_num)]

/-- C1: a fused run of `k` increment bytes sets the current cell to
`(old + k) % 255`; a fused run of `k` decrement bytes sets it to the byte
truncation (`emod 256`) of the truncated remainder `(old - k).tmod 255`;
executing `">>>>+<-"` on a fresh tape leaves the first five data cells
`{0,0,0,255,1}`, and `"+++++"` leaves the first data cell `5`. -/
theorem C1_fused_arithmetic :
    (∀ (p : Program) (k : Nat), p.memory.getD p.pc 0 = 43 → k = runLen p.memory 43 p.pc →
      p.step = ({ p with
          memory := p.memory.set p.memPtr ((p.memory.getD p.memPtr 0 + k) % 255),
          pc := p.pc + k }, [])) ∧
    (∀ (p : Program) (k : Nat), p.memory.getD p.pc 0 = 45 → k = runLen p.memory 45 p.pc →
      p.step = ({ p with
          memory := p.memory.set p.memPtr
            (((((p.memory.getD p.memPtr 0 : Nat) : Int) - (k : Int)).tmod 255).emod 256).toNat,
          pc := p.pc + k }, [])) ∧
    ((NewProgram [62, 62, 62, 62, 43, 60, 45]).toOption.map (fun p0 =>
        (((Program.runFuel 10 p0).1.DataSection.getD 0 0,
          (Program.runFuel 10 p0).1.DataSection.getD 1 0,
          (Program.runFuel 10 p0).1.DataSection.getD 2 0,
          (Program.runFuel 10 p0).1.DataSection.getD 3 0,
          (Program.runFuel 10 p0).1.DataSection.getD 4 0),
         (Program.runFuel 10 p0).2)) = some ((0, 0, 0, 255, 1), [])) ∧
    ((NewProgram [43, 43, 43, 43, 43]).toOption.map (fun p0 =>
        ((Program.runFuel 10 p0).1.DataSection.getD 0 0, (Program.runFuel 10 p0).2))
      = some (5, [])) := by
  refine ⟨?_, ?_, ?_, ?_⟩
  · intro p k h hk
    subst hk
    rw [Program.step, stepCore_plus true p h, addRolling_value]
  · intro p k h hk
    subst hk
    rw [Program.step, stepCore_minus true p h]
    rfl
  · rw [show NewProgram [62, 62, 62, 62, 43, 60, 45] = Except.ok prog1 from rfl]
    simp only [Except.toOption, Option.map]
    rw [prog1_cells.1, prog1_cells.2]
  · rw [show NewProgram [43, 43, 43, 43, 43] = Except.ok prog2 from rfl]
    simp only [Except.toOption, Option.map]
    rw [prog2_cells.1, prog2_cells.2]

/-- Witness for C1: concrete fused runs `"++"` on cell 0 and `"--"` on cell 0. -/
theorem C1_fused_arithmetic_witness :
    (([43, 43, 0] : List Nat).getD 0 0 = 43 ∧ (2 : Nat) = runLen [43, 43, 0] 43 0 ∧
      Program.step ⟨[43, 43, 0], 0, 0, 0, 0, 0, 0, 0, 0, 2⟩ =
        (⟨[43, 43, 2], 0, 2, 0, 0, 0, 0, 0, 0, 2⟩, [])) ∧
    (([45, 45, 0] : List Nat).getD 0 0 = 45 ∧ (2 : Nat) = runLen [45, 45, 0] 45 0 ∧
      Program.step ⟨[45, 45, 0], 0, 0, 0, 0, 0, 0, 0, 0, 2⟩ =
        (⟨[45, 45, 254], 0, 2, 0, 0, 0, 0, 0, 0, 2⟩, [])) :=
  ⟨⟨by decide, by decide,
    (C1_fused_arithmetic.1 _ 2 (by decide) (by decide)).trans (by decide)⟩,
   ⟨by decide, by decide,
    (C1_fused_arithmetic.2.1 _ 2 (by decide) (by decide)).trans (by decide)⟩⟩

/-- C2 counterexample: loading the one-instruction program `"<"` puts the tape
pointer at `dataStart = 11`; a single `Left` lands at 10, strictly below
`dataStart` — the pointer leaves the data segment, so it does not wrap modulo
the data-segment size. -/
theorem C2_pointer_counterexample :
    ((NewProgram [60]).toOption.map (fun p =>
        ((Program.Left p).memPtr, p.dataStart, decide ((Program.Left p).memPtr < p.dataStart))))
      = some (10, 11, true) := by
  rfl

/-- C2 (amended): each `Right`/`Left` update wraps the tape pointer modulo the
TOTAL memory length (code segment + data segment), not the data-segment size;
the pointer always stays within `[0, memory.length)` but may enter the code
segment. -/
theorem C2_pointer_wraps_whole_memory (p : Program) (h : p.memPtr < p.memory.length) :
    (Program.Right p).memPtr = (p.memPtr + 1) % p.memory.length ∧
    (Program.Left p).memPtr = (p.memPtr + p.memory.length - 1) % p.memory.length ∧
    (Program.Right p).memPtr < p.memory.length ∧
    (Program.Left p).memPtr < p.memory.length := by
  have hlen : 0 < p.memory.length := by omega
  have hr : (Program.Right p).memPtr = (p.memPtr + 1) % p.memory.length := by
    unfold Program.Right
    by_cases hc : p.memPtr + 1 ≥ p.memory.length
    · rw [if_pos hc]
      have : p.memPtr + 1 = p.memory.length := by omega
      simp [this, Nat.mod_self]
    · rw [if_neg hc]
      simp [Nat.mod_eq_of_lt (by omega : p.memPtr + 1 < p.memory.length)]
  have hl : (Program.Left p).memPtr = (p.memPtr + p.memory.length - 1) % p.memory.length := by
    unfold Program.Left
    by_cases hc : p.memPtr = 0
    · rw [if_pos hc]
      simp [hc, Nat.mod_eq_of_lt (by omega : p.memory.length - 1 < p.memory.length)]
    · rw [if_neg hc]
      have h2 : p.memPtr + p.memory.length - 1 =
          (p.memPtr - 1) + 1 * p.memory.length := by omega
      rw [h2, Nat.add_mul_mod_self_right,
          Nat.mod_eq_of_lt (by omega : p.memPtr - 1 < p.memory.length)]
  refine ⟨hr, hl, ?_, ?_⟩
  · rw [hr]; exact Nat.mod_lt _ hlen
  · rw [hl]; exact Nat.mod_lt _ hlen

/-- Witness for the amended C2 at a concrete three-cell machine. -/
theorem C2_pointer_wraps_whole_memory_witness :
    (⟨[7, 8, 9], 0, 0, 0, 0, 0, 0, 0, 0, 2⟩ : Program).memPtr <
      (⟨[7, 8, 9], 0, 0, 0, 0, 0, 0, 0, 0, 2⟩ : Program).memory.length ∧
    (Program.Right ⟨[7, 8, 9], 0, 0, 0, 0, 0, 0, 0, 0, 2⟩).memPtr = (2 + 1) % 3 ∧
    (Program.Left ⟨[7, 8, 9], 0, 0, 0, 0, 0, 0, 0, 0, 2⟩).memPtr = (2 + 3 - 1) % 3 :=
  ⟨by decide,
   (C2_pointer_wraps_whole_memory ⟨[7, 8, 9], 0, 0, 0, 0, 0, 0, 0, 0, 2⟩ (by decide)).1.trans
     (by decide),
   ((C2_pointer_wraps_whole_memory ⟨[7, 8, 9], 0, 0, 0, 0, 0, 0, 0, 0, 2⟩ (by decide)).2.1).trans
     (by decide)⟩

/-- Dispatching any opcode outside the internal table forwards exactly that
`Op`, unchanged, and leaves the machine state untouched. -/
theorem opDispatch_forward (p : Program) (op : Op) (h : ¬ internalOpcode op.code) :
    p.opDispatch op = (p, [op]) := by
  simp only [internalOpcode, not_or] at h
  obtain ⟨h0, h1, h2, h20⟩ := h
  unfold Program.opDispatch
  repeat rw [if_neg (by omega)]

/-- Dispatching an internal opcode never sends anything on the channel. -/
theorem opDispatch_internal (p : Program) (op : Op) (h : internalOpcode op.code) :
    (p.opDispatch op).2 = [] := by
  rcases h with h | h | h | ⟨hlo, hhi⟩
  · simp [Program.opDispatch, h]
  · simp [Program.opDispatch, h]
  · simp [Program.opDispatch, h]
  · interval_cases hc : op.code <;> simp [Program.opDispatch, hc]

/-- C3: an `Op` whose opcode is outside the internal table (0 no-op, 1-2
relative jumps, 20-25 register stores, 26-31 register loads) is forwarded
verbatim to the channel with the state unchanged (no error path exists);
an internal opcode sends nothing. Invoking with current cell 41 and the tape
pointer at least 8 cells in forwards exactly one `Op` with code 41 whose
arguments are the 8 bytes preceding the pointer. -/
theorem C3_out_of_table_forwarded :
    (∀ (p : Program) (op : Op), ¬ internalOpcode op.code → p.opDispatch op = (p, [op])) ∧
    (∀ (p : Program) (op : Op), internalOpcode op.code → (p.opDispatch op).2 = []) ∧
    (∀ p : Program, p.memory.getD p.pc 0 = 46 → p.memory.getD p.memPtr 0 = 41 →
      8 ≤ p.memPtr → p.memPtr ≤ p.memory.length →
      p.step = ({ p with pc := p.pc + 1 },
        [⟨41, (p.memory.drop (p.memPtr - 8)).take 8⟩])) := by
  refine ⟨opDispatch_forward, opDispatch_internal, ?_⟩
  intro p hpc hcell h8 hlen
  rw [Program.step, stepCore_invoke true p hpc]
  have hop : p.invokeOp = ⟨41, (p.memory.drop (p.memPtr - 8)).take 8⟩ := by
    unfold Program.invokeOp
    rw [if_neg (by omega : ¬ p.memPtr < 8)]
    dsimp only
    have e1 : p.memPtr - (p.memPtr - 8) = 8 := by omega
    rw [e1]
    have e2 : ((p.memory.drop (p.memPtr - 8)).take 8).length = 8 := by
      rw [List.length_take, List.length_drop]
      omega
    rw [e2]
    simp only [List.getD_eq_getElem?_getD] at hcell
    simp [Program.Byte, Int.toNat_natCast, hcell]
  rw [hop, opDispatch_forward p _ (by simp [internalOpcode])]

/-- Witness for C3: a forwarded opcode 41, a silent internal store, and a
concrete invoke of opcode 41 with the pointer 8 cells into memory. -/
theorem C3_out_of_table_forwarded_witness :
    (¬ internalOpcode 41 ∧
      Program.opDispatch ⟨[0], 0, 0, 0, 0, 0, 0, 0, 0, 0⟩ ⟨41, [1, 2, 3, 4, 5, 6, 7, 8]⟩ =
        (⟨[0], 0, 0, 0, 0, 0, 0, 0, 0, 0⟩, [⟨41, [1, 2, 3, 4, 5, 6, 7, 8]⟩])) ∧
    (internalOpcode 20 ∧
      (Program.opDispatch ⟨[0], 0, 0, 0, 0, 0, 0, 0, 0, 0⟩ ⟨20, [1, 2, 3, 4, 5, 6, 7, 8]⟩).2 = []) ∧
    Program.step ⟨[46, 1, 2, 3, 4, 5, 6, 7, 41], 0, 0, 0, 0, 0, 0, 0, 0, 8⟩ =
      (⟨[46, 1, 2, 3, 4, 5, 6, 7, 41], 0, 1, 0, 0, 0, 0, 0, 0, 8⟩,
        [⟨41, [46, 1, 2, 3, 4, 5, 6, 7]⟩]) :=
  ⟨⟨by decide, C3_out_of_table_forwarded.1 _ _ (by decide)⟩,
   ⟨by decide, C3_out_of_table_forwarded.2.1 _ _ (by decide)⟩,
   (C3_out_of_table_forwarded.2.2 _ (by decide) (by decide) (by decide) (by decide)).trans
     (by decide)⟩

/-- C10: `Op.Word` and `Op.QWord` never read their index parameter: for every
index the result decodes argument bytes 1,0 (respectively 3,2,1,0) big-endian,
exactly as for index 0. -/
theorem C10_word_qword_ignore_index :
    ∀ (op : Op) (i : Nat),
      op.Word i = (op.Byte 1) <<< 8 ||| op.Byte 0 ∧
      op.QWord i =
        ((op.Byte 3) <<< 24 ||| (op.Byte 2) <<< 16) ||| (op.Byte 1) <<< 8 ||| op.Byte 0 ∧
      op.Word i = op.Word 0 ∧
      op.QWord i = op.QWord 0 ∧
      (op.Byte 0 < 256 → op.Byte 1 < 256 →
        op.Word i = op.Byte 1 * 256 + op.Byte 0) ∧
      (op.Byte 0 < 256 → op.Byte 1 < 256 → op.Byte 2 < 256 → op.Byte 3 < 256 →
        op.QWord i =
          op.Byte 3 * 16777216 + op.Byte 2 * 65536 + op.Byte 1 * 256 + op.Byte 0) := by
  intro op i
  refine ⟨rfl, rfl, rfl, rfl, ?_, ?_⟩
  · intro hb0 hb1
    rw [Op.Word, word_eq _ _ hb0]
  · intro hb0 hb1 hb2 hb3
    rw [Op.QWord, qword_eq _ _ _ _ hb2 hb1 hb0]

/-- Witness for C10 at a concrete `Op` and a nonzero index. -/
theorem C10_word_qword_ignore_index_witness :
    Op.Word ⟨9, [1, 2, 3, 4, 5, 6, 7, 8]⟩ 5 = 7 * 256 + 8 ∧
    Op.QWord ⟨9, [1, 2, 3, 4, 5, 6, 7, 8]⟩ 5 =
      5 * 16777216 + 6 * 65536 + 7 * 256 + 8 :=
  ⟨((C10_word_qword_ignore_index ⟨9, [1, 2, 3, 4, 5, 6, 7, 8]⟩ 5).2.2.2.2.1
      (by decide) (by decide)).trans (by decide),
   ((C10_word_qword_ignore_index ⟨9, [1, 2, 3, 4, 5, 6, 7, 8]⟩ 5).2.2.2.2.2
      (by decide) (by decide) (by decide) (by decide)).trans (by decide)⟩

/-- C7 (divergence witness): at an invoke with the tape pointer 3 cells from
the start of memory, the three available bytes are copied to the FRONT of the
argument array and the zero padding sits at the END, so `Byte 0` reads padding
(0) instead of the most recently written byte `memory[memPtr-1] = 7` — exactly
the source's FIXME. -/
theorem C7_args_near_start_divergence :
    Program.invokeOp ⟨[5, 6, 7, 46], 0, 3, 0, 0, 0, 0, 0, 0, 3⟩ =
      ⟨46, [5, 6, 7, 0, 0, 0, 0, 0]⟩ ∧
    (Program.invokeOp ⟨[5, 6, 7, 46], 0, 3, 0, 0, 0, 0, 0, 0, 3⟩).Byte 0 = 0 ∧
    (⟨[5, 6, 7, 46], 0, 3, 0, 0, 0, 0, 0, 0, 3⟩ : Program).memory.getD (3 - 1) 0 = 7 := by
  decide

/-- The bracket-depth fold of `ValidateBrainfuck` computes
`start + count '[' - count ']'`. -/
theorem validate_depth (code : List Nat) :
    ∀ d : Int,
      code.foldl (fun d b => if b = 91 then d + 1 else if b = 93 then d - 1 else d) d =
        d + (code.count 91 : Int) - (code.count 93 : Int) := by
  induction code with
  | nil => intro d; simp
  | cons a t ih =>
    intro d
    by_cases h91 : a = 91
    · subst h91
      simp only [List.foldl_cons, if_pos rfl, ih, List.count_cons]
      norm_num
      ring
    · by_cases h93 : a = 93
      · subst h93
        simp only [List.foldl_cons, if_neg (show ¬(93 : Nat) = 91 by norm_num),
          if_pos rfl, ih, List.count_cons]
        norm_num
        ring
      · simp only [List.foldl_cons, if_neg h91, if_neg h93, ih, List.count_cons]
        have e1 : (a == 91) = false := by simp [h91]
        have e2 : (a == 93) = false := by simp [h93]
        rw [e1, e2]
        norm_num

/-- C6: `NewProgram` reports `ErrCodeBracketImbalance` exactly when the counts
of `'['` and `']'` in the raw input differ; the structurally imbalanced but
count-balanced program `"]["` loads without error. -/
theorem C6_bracket_count_balance :
    (∀ code : List Nat,
        NewProgram code = Except.error VMError.bracketImbalance ↔
          code.count 91 ≠ code.count 93) ∧
    (NewProgram [93, 91]).isOk = true ∧
    [93, 91].count 91 = [93, 91].count 93 := by
  refine ⟨?_, rfl, by decide⟩
  intro code
  have hdep := validate_depth code 0
  unfold NewProgram ValidateBrainfuck
  rw [hdep]
  by_cases h : (0 : Int) + (code.count 91 : Int) - (code.count 93 : Int) ≠ 0
  · rw [if_pos h]
    simp
    omega
  · rw [if_neg h]
    dsimp only
    constructor
    · intro hcontra
      exact absurd hcontra (fun hcc => Except.noConfusion hcc)
    · intro hcount
      exact absurd hcount (by omega)

/-- With the tape pointer at least 8 cells into memory, the invoke instruction
gathers exactly the 8 bytes before the pointer. -/
theorem invokeOp_args (p : Program) (h8 : 8 ≤ p.memPtr) (hlen : p.memPtr ≤ p.memory.length) :
    (p.invokeOp).args = (p.memory.drop (p.memPtr - 8)).take 8 := by
  unfold Program.invokeOp
  rw [if_neg (by omega : ¬ p.memPtr < 8)]
  dsimp only
  have e1 : p.memPtr - (p.memPtr - 8) = 8 := by omega
  rw [e1]
  have e2 : ((p.memory.drop (p.memPtr - 8)).take 8).length = 8 := by
    rw [List.length_take, List.length_drop]
    omega
  rw [e2]
  simp

/-- With the pointer at least 8 cells into memory, argument byte `i` of the
invoke `Op` is the byte at `memPtr - 1 - i`. -/
theorem invokeOp_byte (p : Program) (h8 : 8 ≤ p.memPtr) (hlen : p.memPtr ≤ p.memory.length)
    (i : Nat) (hi : i < 8) :
    (p.invokeOp).Byte i = p.memory.getD (p.memPtr - 1 - i) 0 := by
  rw [Op.Byte, invokeOp_args p h8 hlen,
      show (8 : Nat) - i - 1 = 7 - i by omega,
      listGetD_take_lt _ 8 (7 - i) (by omega), listGetD_drop,
      show p.memPtr - 8 + (7 - i) = p.memPtr - 1 - i by omega]

/-- C4: for each register width (8, 16, 32 bits) and each register pair, with
the tape pointer unchanged and at least 8 cells into memory, dispatching the
register-store opcode `20+j` and then its paired register-load opcode `26+j`
writes the original argument bytes back into the same tape cells unchanged,
and neither dispatch forwards an `Op` to the channel. -/
theorem C4_register_roundtrip (p : Program) (hb : ∀ b ∈ p.memory, b < 256)
    (h8 : 8 ≤ p.memPtr) (hlen : p.memPtr ≤ p.memory.length) :
    ∀ j : Nat, j < 6 →
      (let s1 := p.opDispatch ⟨20 + j, (p.invokeOp).args⟩
       let s2 := s1.1.opDispatch ⟨26 + j, (s1.1.invokeOp).args⟩
       s2.1.memory = p.memory ∧ s2.1.memPtr = p.memPtr ∧ s1.2 = [] ∧ s2.2 = []) := by
  intro j hj
  have hm : ∀ i, p.memory.getD i 0 < 256 := listGetD_lt_bound p.memory hb
  have ha0 : (p.invokeOp).Byte 0 = p.memory.getD (p.memPtr - 1) 0 := by
    rw [invokeOp_byte p h8 hlen 0 (by norm_num)]
    norm_num
  have ha1 : (p.invokeOp).Byte 1 = p.memory.getD (p.memPtr - 2) 0 := by
    rw [invokeOp_byte p h8 hlen 1 (by norm_num),
        show p.memPtr - 1 - 1 = p.memPtr - 2 by omega]
  have ha2 : (p.invokeOp).Byte 2 = p.memory.getD (p.memPtr - 3) 0 := by
    rw [invokeOp_byte p h8 hlen 2 (by norm_num),
        show p.memPtr - 1 - 2 = p.memPtr - 3 by omega]
  have ha3 : (p.invokeOp).Byte 3 = p.memory.getD (p.memPtr - 4) 0 := by
    rw [invokeOp_byte p h8 hlen 3 (by norm_num),
        show p.memPtr - 1 - 3 = p.memPtr - 4 by omega]
  have hword : (p.invokeOp).Word 0 =
      p.memory.getD (p.memPtr - 2) 0 * 256 + p.memory.getD (p.memPtr - 1) 0 := by
    rw [Op.Word, ha0, ha1, word_eq _ _ (hm _)]
  have hqword : (p.invokeOp).QWord 0 =
      p.memory.getD (p.memPtr - 4) 0 * 16777216 + p.memory.getD (p.memPtr - 3) 0 * 65536 +
        p.memory.getD (p.memPtr - 2) 0 * 256 + p.memory.getD (p.memPtr - 1) 0 := by
    rw [Op.QWord, ha0, ha1, ha2, ha3, qword_eq _ _ _ _ (hm _) (hm _) (hm _)]
  have t1 : ((p.memPtr : Int) - 1).toNat = p.memPtr - 1 := by omega
  have t2 : ((p.memPtr : Int) - 1 - 1).toNat = p.memPtr - 2 := by omega
  have t3 : ((p.memPtr : Int) - 1 - 1 - 1).toNat = p.memPtr - 3 := by omega
  have t4 : ((p.memPtr : Int) - 1 - 1 - 1 - 1).toNat = p.memPtr - 4 := by omega
  interval_cases j
  · -- 8-bit register A
    dsimp only
    have e1 : p.opDispatch ⟨20 + 0, (p.invokeOp).args⟩ =
        ({ p with r8a := (p.invokeOp).Byte 0 }, []) := by
      simp [Program.opDispatch]
      rfl
    rw [e1]
    have e2 : Program.opDispatch { p with r8a := (p.invokeOp).Byte 0 }
          ⟨26 + 0, (Program.invokeOp { p with r8a := (p.invokeOp).Byte 0 }).args⟩ =
        (Program.SetByte { p with r8a := (p.invokeOp).Byte 0 } ((p.memPtr : Int) - 1)
          ((p.invokeOp).Byte 0), []) := by
      simp [Program.opDispatch]
    rw [e2]
    refine ⟨?_, rfl, rfl, rfl⟩
    show p.memory.set ((p.memPtr : Int) - 1).toNat ((p.invokeOp).Byte 0) = p.memory
    rw [t1, ha0]
    exact listSet_getD_same p.memory (p.memPtr - 1)
  · -- 8-bit register B
    dsimp only
    have e1 : p.opDispatch ⟨20 + 1, (p.invokeOp).args⟩ =
        ({ p with r8b := (p.invokeOp).Byte 0 }, []) := by
      simp [Program.opDispatch]
      rfl
    rw [e1]
    have e2 : Program.opDispatch { p with r8b := (p.invokeOp).Byte 0 }
          ⟨26 + 1, (Program.invokeOp { p with r8b := (p.invokeOp).Byte 0 }).args⟩ =
        (Program.SetByte { p with r8b := (p.invokeOp).Byte 0 } ((p.memPtr : Int) - 1)
          ((p.invokeOp).Byte 0), []) := by
      simp [Program.opDispatch]
    rw [e2]
    refine ⟨?_, rfl, rfl, rfl⟩
    show p.memory.set ((p.memPtr : Int) - 1).toNat ((p.invokeOp).Byte 0) = p.memory
    rw [t1, ha0]
    exact listSet_getD_same p.memory (p.memPtr - 1)
  · -- 16-bit register A
    dsimp only
    have e1 : p.opDispatch ⟨20 + 2, (p.invokeOp).args⟩ =
        ({ p with r16a := (p.invokeOp).Word 0 }, []) := by
      simp [Program.opDispatch]
      rfl
    rw [e1]
    have e2 : Program.opDispatch { p with r16a := (p.invokeOp).Word 0 }
          ⟨26 + 2, (Program.invokeOp { p with r16a := (p.invokeOp).Word 0 }).args⟩ =
        (Program.SetWord { p with r16a := (p.invokeOp).Word 0 } ((p.memPtr : Int) - 1)
          ((p.invokeOp).Word 0), []) := by
      simp [Program.opDispatch]
    rw [e2]
    refine ⟨?_, rfl, rfl, rfl⟩
    show (p.memory.set ((p.memPtr : Int) - 1 - 1).toNat (((p.invokeOp).Word 0 >>> 8) % 256)).set
        ((p.memPtr : Int) - 1).toNat ((p.invokeOp).Word 0 % 256) = p.memory
    have vhi : ((p.invokeOp).Word 0 >>> 8) % 256 = p.memory.getD (p.memPtr - 2) 0 := by
      rw [hword, Nat.shiftRight_eq_div_pow, show (2 : Nat) ^ 8 = 256 from by norm_num]
      have b1 := hm (p.memPtr - 1)
      have b2 := hm (p.memPtr - 2)
      omega
    have vlo : (p.invokeOp).Word 0 % 256 = p.memory.getD (p.memPtr - 1) 0 := by
      rw [hword]
      have b1 := hm (p.memPtr - 1)
      omega
    rw [t1, t2, vhi, vlo, listSet_getD_same, listSet_getD_same]
  · -- 16-bit register B
    dsimp only
    have e1 : p.opDispatch ⟨20 + 3, (p.invokeOp).args⟩ =
        ({ p with r16b := (p.invokeOp).Word 0 }, []) := by
      simp [Program.opDispatch]
      rfl
    rw [e1]
    have e2 : Program.opDispatch { p with r16b := (p.invokeOp).Word 0 }
          ⟨26 + 3, (Program.invokeOp { p with r16b := (p.invokeOp).Word 0 }).args⟩ =
        (Program.SetWord { p with r16b := (p.invokeOp).Word 0 } ((p.memPtr : Int) - 1)
          ((p.invokeOp).Word 0), []) := by
      simp [Program.opDispatch]
    rw [e2]
    refine ⟨?_, rfl, rfl, rfl⟩
    show (p.memory.set ((p.memPtr : Int) - 1 - 1).toNat (((p.invokeOp).Word 0 >>> 8) % 256)).set
        ((p.memPtr : Int) - 1).toNat ((p.invokeOp).Word 0 % 256) = p.memory
    have vhi : ((p.invokeOp).Word 0 >>> 8) % 256 = p.memory.getD (p.memPtr - 2) 0 := by
      rw [hword, Nat.shiftRight_eq_div_pow, show (2 : Nat) ^ 8 = 256 from by norm_num]
      have b1 := hm (p.memPtr - 1)
      have b2 := hm (p.memPtr - 2)
      omega
    have vlo : (p.invokeOp).Word 0 % 256 = p.memory.getD (p.memPtr - 1) 0 := by
      rw [hword]
      have b1 := hm (p.memPtr - 1)
      omega
    rw [t1, t2, vhi, vlo, listSet_getD_same, listSet_getD_same]
  · -- 32-bit register A
    dsimp only
    have e1 : p.opDispatch ⟨20 + 4, (p.invokeOp).args⟩ =
        ({ p with r32a := (p.invokeOp).QWord 0 }, []) := by
      simp [Program.opDispatch]
      rfl
    rw [e1]
    have e2 : Program.opDispatch { p with r32a := (p.invokeOp).QWord 0 }
          ⟨26 + 4, (Program.invokeOp { p with r32a := (p.invokeOp).QWord 0 }).args⟩ =
        (Program.SetQWord { p with r32a := (p.invokeOp).QWord 0 } ((p.memPtr : Int) - 1)
          ((p.invokeOp).QWord 0), []) := by
      simp [Program.opDispatch]
    rw [e2]
    refine ⟨?_, rfl, rfl, rfl⟩
    show (((p.memory.set ((p.memPtr : Int) - 1 - 3).toNat (((p.invokeOp).QWord 0 >>> 24) % 256)).set
        ((p.memPtr : Int) - 1 - 2).toNat (((p.invokeOp).QWord 0 >>> 16) % 256)).set
        ((p.memPtr : Int) - 1 - 1).toNat (((p.invokeOp).QWord 0 >>> 8) % 256)).set
        ((p.memPtr : Int) - 1).toNat ((p.invokeOp).QWord 0 % 256) = p.memory
    have b1 := hm (p.memPtr - 1)
    have b2 := hm (p.memPtr - 2)
    have b3 := hm (p.memPtr - 3)
    have b4 := hm (p.memPtr - 4)
    have v24 : ((p.invokeOp).QWord 0 >>> 24) % 256 = p.memory.getD (p.memPtr - 4) 0 := by
      rw [hqword, Nat.shiftRight_eq_div_pow, show (2 : Nat) ^ 24 = 16777216 from by norm_num]
      omega
    have v16 : ((p.invokeOp).QWord 0 >>> 16) % 256 = p.memory.getD (p.memPtr - 3) 0 := by
      rw [hqword, Nat.shiftRight_eq_div_pow, show (2 : Nat) ^ 16 = 65536 from by norm_num]
      omega
    have v8 : ((p.invokeOp).QWord 0 >>> 8) % 256 = p.memory.getD (p.memPtr - 2) 0 := by
      rw [hqword, Nat.shiftRight_eq_div_pow, show (2 : Nat) ^ 8 = 256 from by norm_num]
      omega
    have v0 : (p.invokeOp).QWord 0 % 256 = p.memory.getD (p.memPtr - 1) 0 := by
      rw [hqword]
      omega
    rw [show ((p.memPtr : Int) - 1 - 3).toNat = p.memPtr - 4 by omega,
        show ((p.memPtr : Int) - 1 - 2).toNat = p.memPtr - 3 by omega,
        t1, t2, v24, v16, v8, v0,
        listSet_getD_same, listSet_getD_same, listSet_getD_same, listSet_getD_same]
  · -- 32-bit register B
    dsimp only
    have e1 : p.opDispatch ⟨20 + 5, (p.invokeOp).args⟩ =
        ({ p with r32b := (p.invokeOp).QWord 0 }, []) := by
      simp [Program.opDispatch]
      rfl
    rw [e1]
    have e2 : Program.opDispatch { p with r32b := (p.invokeOp).QWord 0 }
          ⟨26 + 5, (Program.invokeOp { p with r32b := (p.invokeOp).QWord 0 }).args⟩ =
        (Program.SetQWord { p with r32b := (p.invokeOp).QWord 0 } ((p.memPtr : Int) - 1)
          ((p.invokeOp).QWord 0), []) := by
      simp [Program.opDispatch]
    rw [e2]
    refine ⟨?_, rfl, rfl, rfl⟩
    show (((p.memory.set ((p.memPtr : Int) - 1 - 3).toNat (((p.invokeOp).QWord 0 >>> 24) % 256)).set
        ((p.memPtr : Int) - 1 - 2).toNat (((p.invokeOp).QWord 0 >>> 16) % 256)).set
        ((p.memPtr : Int) - 1 - 1).toNat (((p.invokeOp).QWord 0 >>> 8) % 256)).set
        ((p.memPtr : Int) - 1).toNat ((p.invokeOp).QWord 0 % 256) = p.memory
    have b1 := hm (p.memPtr - 1)
    have b2 := hm (p.memPtr - 2)
    have b3 := hm (p.memPtr - 3)
    have b4 := hm (p.memPtr - 4)
    have v24 : ((p.invokeOp).QWord 0 >>> 24) % 256 = p.memory.getD (p.memPtr - 4) 0 := by
      rw [hqword, Nat.shiftRight_eq_div_pow, show (2 : Nat) ^ 24 = 16777216 from by norm_num]
      omega
    have v16 : ((p.invokeOp).QWord 0 >>> 16) % 256 = p.memory.getD (p.memPtr - 3) 0 := by
      rw [hqword, Nat.shiftRight_eq_div_pow, show (2 : Nat) ^ 16 = 65536 from by norm_num]
      omega
    have v8 : ((p.invokeOp).QWord 0 >>> 8) % 256 = p.memory.getD (p.memPtr - 2) 0 := by
      rw [hqword, Nat.shiftRight_eq_div_pow, show (2 : Nat) ^ 8 = 256 from by norm_num]
      omega
    have v0 : (p.invokeOp).QWord 0 % 256 = p.memory.getD (p.memPtr - 1) 0 := by
      rw [hqword]
      omega
    rw [show ((p.memPtr : Int) - 1 - 3).toNat = p.memPtr - 4 by omega,
        show ((p.memPtr : Int) - 1 - 2).toNat = p.memPtr - 3 by omega,
        t1, t2, v24, v16, v8, v0,
        listSet_getD_same, listSet_getD_same, listSet_getD_same, listSet_getD_same]

/-- Witness for C4: a concrete 32-bit round-trip with the pointer 8 cells in. -/
theorem C4_register_roundtrip_witness :
    (∀ b ∈ ([10, 20, 30, 40, 50, 60, 70, 80, 46] : List Nat), b < 256) ∧
    (8 : Nat) ≤ 8 ∧ (8 : Nat) ≤ 9 ∧ (4 : Nat) < 6 ∧
    (let p : Program := ⟨[10, 20, 30, 40, 50, 60, 70, 80, 46], 0, 0, 0, 0, 0, 0, 0, 0, 8⟩
     let s1 := p.opDispatch ⟨20 + 4, (p.invokeOp).args⟩
     let s2 := s1.1.opDispatch ⟨26 + 4, (s1.1.invokeOp).args⟩
     s2.1.memory = p.memory ∧ s2.1.memPtr = p.memPtr ∧ s1.2 = [] ∧ s2.2 = []) :=
  ⟨by decide, by decide, by decide, by decide,
   C4_register_roundtrip ⟨[10, 20, 30, 40, 50, 60, 70, 80, 46], 0, 0, 0, 0, 0, 0, 0, 0, 8⟩
     (by decide) (by decide) (by decide) 4 (by decide)⟩

/-- The three bytes at `pc, pc+1, pc+2` extracted as the slice compared by the
clear-idiom guard. -/
theorem take3_of_getD (mem : List Nat) (pc : Nat)
    (h0 : mem.getD pc 0 = 91) (h1 : mem.getD (pc + 1) 0 = 45)
    (h2 : mem.getD (pc + 2) 0 = 93) :
    (mem.drop pc).take 3 = [91, 45, 93] := by
  have hlt2 : pc + 2 < mem.length := listGetD_pos_lt mem (pc + 2) (by rw [h2]; omega)
  have hlt1 : pc + 1 < mem.length := by omega
  have hlt0 : pc < mem.length := by omega
  have e0 : mem.drop pc = mem[pc] :: mem.drop (pc + 1) := List.drop_eq_getElem_cons hlt0
  have e1 : mem.drop (pc + 1) = mem[pc + 1] :: mem.drop (pc + 2) :=
    List.drop_eq_getElem_cons hlt1
  have e2 : mem.drop (pc + 2) = mem[pc + 2] :: mem.drop (pc + 3) :=
    List.drop_eq_getElem_cons hlt2
  rw [e0, e1, e2]
  have v0 : mem[pc] = 91 := by
    have := h0
    rwa [List.getD_eq_getElem?_getD, List.getElem?_eq_getElem hlt0] at this
  have v1 : mem[pc + 1] = 45 := by
    have := h1
    rwa [List.getD_eq_getElem?_getD, List.getElem?_eq_getElem hlt1] at this
  have v2 : mem[pc + 2] = 93 := by
    have := h2
    rwa [List.getD_eq_getElem?_getD, List.getElem?_eq_getElem hlt2] at this
  rw [v0, v1, v2]
  rfl

/-- One literal iteration of the decrement inside the clear idiom. -/
theorem step_dec (b : Bool) (q : Program) (w : Nat) (hw1 : 1 ≤ w) (hw2 : w ≤ 255)
    (hinstr : q.memory.getD q.pc 0 = 45)
    (hnext : q.memory.getD (q.pc + 1) 0 ≠ 45)
    (hcell : q.memory.getD q.memPtr 0 = w) :
    stepCore b q = ({ q with memory := q.memory.set q.memPtr (w - 1), pc := q.pc + 1 }, []) := by
  rw [stepCore_minus b q hinstr]
  have hr : runLen q.memory 45 q.pc = 1 :=
    runLen_eq_of _ 45 (by norm_num) 1 q.pc
      (fun j hj => by interval_cases j; simpa using hinstr)
      (by simpa using hnext)
  rw [hr, hcell, Nat.cast_one]
  rw [show ((SubRolling (w : Int) 1 255).emod 256).toNat = w - 1 from subRolling_dec w hw1 hw2]

/-- Literal execution of the loop body of `"[-]"`: from the decrement with the
cell holding `v + 1`, the loop runs `2 * (v + 1)` iterations, zeroes the cell,
and leaves the interpreter just past the closing bracket. -/
theorem literal_loop (pc memPtr : Nat) :
    ∀ v : Nat, v + 1 ≤ 255 → ∀ q : Program,
      q.pc = pc + 1 → q.memPtr = memPtr →
      q.memory.getD pc 0 = 91 → q.memory.getD (pc + 1) 0 = 45 →
      q.memory.getD (pc + 2) 0 = 93 →
      memPtr ≠ pc → memPtr ≠ pc + 1 → memPtr ≠ pc + 2 →
      q.memory.getD memPtr 0 = v + 1 →
      runCore false (2 * (v + 1)) q =
        ({ q with memory := q.memory.set memPtr 0, pc := pc + 3 }, []) := by
  intro v
  induction v with
  | zero =>
    intro _ q hqpc hqm h0 h1 h2 hm0 hm1 hm2 hcell
    have hmlt : q.memPtr < q.memory.length :=
      listGetD_pos_lt q.memory q.memPtr (by rw [hqm, hcell]; omega)
    have s1 : stepCore false q =
        ({ q with memory := q.memory.set q.memPtr (1 - 1), pc := q.pc + 1 }, []) :=
      step_dec false q 1 (by norm_num) (by norm_num)
        (by rw [hqpc]; exact h1)
        (by rw [hqpc]
            show q.memory.getD (pc + 1 + 1) 0 ≠ 45
            rw [show pc + 1 + 1 = pc + 2 from rfl, h2]
            norm_num)
        (by rw [hqm]; exact hcell)
    have hnz1 : q.memory.getD q.pc 0 ≠ 0 := by rw [hqpc, h1]; norm_num
    rw [show 2 * (0 + 1) = 1 + 1 from rfl, runCore_step false 1 q _ hnz1 s1]
    have h2q1 : (q.memory.set q.memPtr (1 - 1)).getD (pc + 2) 0 = 93 := by
      rw [listGetD_set_ne _ q.memPtr (pc + 2) _ (by omega)]
      exact h2
    have hcellq1 : (q.memory.set q.memPtr (1 - 1)).getD q.memPtr 0 = 0 := by
      simpa using listGetD_set_self q.memory q.memPtr (1 - 1) hmlt
    have s2 : stepCore false
          ({ q with memory := q.memory.set q.memPtr (1 - 1), pc := q.pc + 1 } : Program) =
        ({ q with memory := q.memory.set q.memPtr (1 - 1), pc := q.pc + 1 + 1 }, []) :=
      stepCore_close_zero false _
        (by show (q.memory.set q.memPtr (1 - 1)).getD (q.pc + 1) 0 = 93
            rw [hqpc]
            exact h2q1)
        (by show (q.memory.set q.memPtr (1 - 1)).getD q.memPtr 0 = 0
            exact hcellq1)
    have hnz2 : ({ q with memory := q.memory.set q.memPtr (1 - 1), pc := q.pc + 1 } :
        Program).memory.getD
          ({ q with memory := q.memory.set q.memPtr (1 - 1), pc := q.pc + 1 } : Program).pc 0
        ≠ 0 := by
      show (q.memory.set q.memPtr (1 - 1)).getD (q.pc + 1) 0 ≠ 0
      rw [hqpc]
      show (q.memory.set q.memPtr (1 - 1)).getD (pc + 1 + 1) 0 ≠ 0
      rw [show pc + 1 + 1 = pc + 2 from rfl, h2q1]
      norm_num
    rw [runCore_step false 0 _ _ hnz2 s2]
    show ({ q with memory := q.memory.set q.memPtr (1 - 1), pc := q.pc + 1 + 1 }, ([] : List Op)) = _
    rw [hqpc, hqm]
  | succ k ih =>
    intro hle q hqpc hqm h0 h1 h2 hm0 hm1 hm2 hcell
    have hmlt : q.memPtr < q.memory.length :=
      listGetD_pos_lt q.memory q.memPtr (by rw [hqm, hcell]; omega)
    have s1 : stepCore false q =
        ({ q with memory := q.memory.set q.memPtr (k + 1 + 1 - 1), pc := q.pc + 1 }, []) :=
      step_dec false q (k + 1 + 1) (by omega) (by omega)
        (by rw [hqpc]; exact h1)
        (by rw [hqpc]
            show q.memory.getD (pc + 1 + 1) 0 ≠ 45
            rw [show pc + 1 + 1 = pc + 2 from rfl, h2]
            norm_num)
        (by rw [hqm]; exact hcell)
    have hnz1 : q.memory.getD q.pc 0 ≠ 0 := by rw [hqpc, h1]; norm_num
    rw [show 2 * (k + 1 + 1) = (2 * (k + 1) + 1) + 1 by ring,
        runCore_step false (2 * (k + 1) + 1) q _ hnz1 s1]
    have h0q1 : (q.memory.set q.memPtr (k + 1 + 1 - 1)).getD pc 0 = 91 := by
      rw [listGetD_set_ne _ q.memPtr pc _ (by omega)]
      exact h0
    have h1q1 : (q.memory.set q.memPtr (k + 1 + 1 - 1)).getD (pc + 1) 0 = 45 := by
      rw [listGetD_set_ne _ q.memPtr (pc + 1) _ (by omega)]
      exact h1
    have h2q1 : (q.memory.set q.memPtr (k + 1 + 1 - 1)).getD (pc + 2) 0 = 93 := by
      rw [listGetD_set_ne _ q.memPtr (pc + 2) _ (by omega)]
      exact h2
    have hjol : jumpToOpenLoop (q.memory.set q.memPtr (k + 1 + 1 - 1)) (pc + 2) = pc :=
      jumpToOpenLoop_clear _ pc h0q1 h1q1 h2q1
    have hcellq1 : (q.memory.set q.memPtr (k + 1 + 1 - 1)).getD q.memPtr 0 = k + 1 := by
      simpa using listGetD_set_self q.memory q.memPtr (k + 1 + 1 - 1) hmlt
    have s2 : stepCore false
          ({ q with memory := q.memory.set q.memPtr (k + 1 + 1 - 1), pc := q.pc + 1 } : Program) =
        ({ q with memory := q.memory.set q.memPtr (k + 1 + 1 - 1), pc := pc + 1 }, []) := by
      rw [stepCore_close_pos false _
            (by show (q.memory.set q.memPtr (k + 1 + 1 - 1)).getD (q.pc + 1) 0 = 93
                rw [hqpc]
                exact h2q1)
            (by show (q.memory.set q.memPtr (k + 1 + 1 - 1)).getD q.memPtr 0 ≠ 0
                rw [hcellq1]
                omega)]
      rw [show ({ q with memory := q.memory.set q.memPtr (k + 1 + 1 - 1), pc := q.pc + 1 } :
            Program).pc = pc + 2 from by rw [hqpc]]
      rw [hjol]
    have hnz2 : ({ q with memory := q.memory.set q.memPtr (k + 1 + 1 - 1), pc := q.pc + 1 } :
        Program).memory.getD
          ({ q with memory := q.memory.set q.memPtr (k + 1 + 1 - 1), pc := q.pc + 1 } :
            Program).pc 0 ≠ 0 := by
      show (q.memory.set q.memPtr (k + 1 + 1 - 1)).getD (q.pc + 1) 0 ≠ 0
      rw [hqpc]
      show (q.memory.set q.memPtr (k + 1 + 1 - 1)).getD (pc + 1 + 1) 0 ≠ 0
      rw [show pc + 1 + 1 = pc + 2 from rfl, h2q1]
      norm_num
    rw [runCore_step false (2 * (k + 1)) _ _ hnz2 s2]
    have hcell_ih : (q.memory.set q.memPtr (k + 1 + 1 - 1)).getD memPtr 0 = k + 1 := by
      rw [hqm] at hcellq1 ⊢
      exact hcellq1
    have hres := ih (by omega)
      ({ q with memory := q.memory.set q.memPtr (k + 1 + 1 - 1), pc := pc + 1 } : Program)
      rfl (by exact hqm) h0q1 h1q1 h2q1 hm0 hm1 hm2 hcell_ih
    rw [hres, hqm, List.set_set]

/-- C5: a loop-open byte whose next two code bytes complete the `"[-]"` idiom
zeroes the current cell and advances the program counter past the idiom; for
every starting cell value this is observably identical (same final state and
same forwarded ops) to executing the idiom literally (interpreter with the
special case disabled), which takes `2 * v + 1` iterations for cell value `v`. -/
theorem C5_clear_idiom (p : Program) (v : Nat)
    (h0 : p.memory.getD p.pc 0 = 91) (h1 : p.memory.getD (p.pc + 1) 0 = 45)
    (h2 : p.memory.getD (p.pc + 2) 0 = 93)
    (hm0 : p.memPtr ≠ p.pc) (hm1 : p.memPtr ≠ p.pc + 1) (hm2 : p.memPtr ≠ p.pc + 2)
    (hv : p.memory.getD p.memPtr 0 = v) (hv255 : v ≤ 255) :
    p.step = ({ p with memory := p.memory.set p.memPtr 0, pc := p.pc + 3 }, []) ∧
    runLiteral (2 * v + 1) p = p.step := by
  have hguard := take3_of_getD p.memory p.pc h0 h1 h2
  have hstep : p.step = ({ p with memory := p.memory.set p.memPtr 0, pc := p.pc + 3 }, []) := by
    rw [Program.step, stepCore_open_clear p h0 hguard]
  refine ⟨hstep, ?_⟩
  rw [hstep]
  cases v with
  | zero =>
    have hset : p.memory.set p.memPtr 0 = p.memory := by
      have hh := listSet_getD_same p.memory p.memPtr
      rwa [hv] at hh
    have sstep : stepCore false p =
        ({ p with pc := jumpToCloseLoop p.memory p.pc + 1 }, []) :=
      stepCore_open_zero false p h0 (by simp) hv
    rw [jumpToCloseLoop_clear p.memory p.pc h0 h1 h2] at sstep
    rw [runLiteral, show 2 * 0 + 1 = 0 + 1 from rfl,
        runCore_step false 0 p _ (by rw [h0]; norm_num) sstep]
    rw [hset]
    rfl
  | succ w =>
    have hne : p.memory.getD p.memPtr 0 ≠ 0 := by rw [hv]; omega
    have sstep : stepCore false p = ({ p with pc := p.pc + 1 }, []) :=
      stepCore_open_pos false p h0 (by simp) hne
    rw [runLiteral, runCore_step false (2 * (w + 1)) p _ (by rw [h0]; norm_num) sstep]
    have hres := literal_loop p.pc p.memPtr w (by omega)
      ({ p with pc := p.pc + 1 } : Program) rfl rfl h0 h1 h2
      (fun hc => hm0 hc) (fun hc => hm1 hc) (fun hc => hm2 hc) hv
    rw [hres]

/-- Witness for C5: the idiom at the start of memory with the cell at index 4
holding 2; the literal run takes 5 iterations. -/
theorem C5_clear_idiom_witness :
    (([91, 45, 93, 0, 2] : List Nat).getD 0 0 = 91 ∧
     ([91, 45, 93, 0, 2] : List Nat).getD 1 0 = 45 ∧
     ([91, 45, 93, 0, 2] : List Nat).getD 2 0 = 93 ∧
     ([91, 45, 93, 0, 2] : List Nat).getD 4 0 = 2) ∧
    Program.step ⟨[91, 45, 93, 0, 2], 0, 0, 0, 0, 0, 0, 0, 0, 4⟩ =
      (⟨[91, 45, 93, 0, 0], 0, 3, 0, 0, 0, 0, 0, 0, 4⟩, []) ∧
    runLiteral 5 ⟨[91, 45, 93, 0, 2], 0, 0, 0, 0, 0, 0, 0, 0, 4⟩ =
      Program.step ⟨[91, 45, 93, 0, 2], 0, 0, 0, 0, 0, 0, 0, 0, 4⟩ := by
  have h := C5_clear_idiom ⟨[91, 45, 93, 0, 2], 0, 0, 0, 0, 0, 0, 0, 0, 4⟩ 2
    (by decide) (by decide) (by decide) (by decide) (by decide) (by decide)
    (by decide) (by decide)
  exact ⟨⟨by decide, by decide, by decide, by decide⟩, h.1.trans (by decide), h.2⟩

/-- `gen.point` from cursor 0 emits exactly the `moveString`. -/
theorem point_zero_record (g : Gen) (a : Int) :
    ({ g with ptr := 0 } : Gen).point a = { g with sb := g.sb ++ moveString a, ptr := a } := by
  unfold Gen.point moveString
  norm_num

/-- C9: from cursor position 0, `inc [a], n` emits exactly the movement run to
`a` (all in one direction) immediately followed by exactly `n` `'+'` markers;
`dec [a], n` likewise with `'-'`; and an omitted count defaults to 1. -/
theorem C9_inc_dec_emission (g : Gen) (a : Int) (n : Nat) (fuel : Nat) :
    (({ g with ptr := 0 } : Gen).instr (fuel + 1)
        ⟨"inc", some (Expr.exprAddr (Expr.exprInt a)), some (Expr.exprInt (n : Int))⟩ =
      some { g with sb := g.sb ++ moveString a ++ String.mk (List.replicate n '+')
                    ptr := a
                    label := "" }) ∧
    (({ g with ptr := 0 } : Gen).instr (fuel + 1)
        ⟨"dec", some (Expr.exprAddr (Expr.exprInt a)), some (Expr.exprInt (n : Int))⟩ =
      some { g with sb := g.sb ++ moveString a ++ String.mk (List.replicate n '-')
                    ptr := a
                    label := "" }) ∧
    (({ g with ptr := 0 } : Gen).instr (fuel + 1)
        ⟨"inc", some (Expr.exprAddr (Expr.exprInt a)), none⟩ =
      some { g with sb := g.sb ++ moveString a ++ String.mk (List.replicate 1 '+')
                    ptr := a
                    label := "" }) ∧
    (({ g with ptr := 0 } : Gen).instr (fuel + 1)
        ⟨"dec", some (Expr.exprAddr (Expr.exprInt a)), none⟩ =
      some { g with sb := g.sb ++ moveString a ++ String.mk (List.replicate 1 '-')
                    ptr := a
                    label := "" }) := by
  refine ⟨?_, ?_, ?_, ?_⟩ <;>
    simp [Gen.instr, Expr.int, point_zero_record, Int.toNat_natCast]

/-- C8: the generator's loop-stack depth is restored across a matched
`while`/`endwhile` (both `endwhile` forms) and across a matched
`if`/`else`/`endif`; generating `endwhile`, `else`, or `endif` with no open
construct fails generation (`none`, the Go panic) instead of emitting output. -/
theorem C8_loop_stack_discipline :
    (∀ (g : Gen) (a : Int) (fuel : Nat),
      ((g.instr (fuel + 1) ⟨"while", some (Expr.exprAddr (Expr.exprInt a)), none⟩).bind
          (fun g1 => g1.instr (fuel + 1) ⟨"endwhile", none, none⟩)).map
        (fun g2 => g2.loopStarts.length) = some g.loopStarts.length) ∧
    (∀ (g : Gen) (a b : Int) (fuel : Nat),
      ((g.instr (fuel + 1) ⟨"while", some (Expr.exprAddr (Expr.exprInt a)), none⟩).bind
          (fun g1 =>
            g1.instr (fuel + 1) ⟨"endwhile", some (Expr.exprAddr (Expr.exprInt b)), none⟩)).map
        (fun g2 => g2.loopStarts.length) = some g.loopStarts.length) ∧
    (∀ (g : Gen) (c j : Int) (fuel : Nat),
      (((g.instr (fuel + 1) ⟨"if", some (Expr.exprAddr (Expr.exprInt c)),
            some (Expr.exprAddr (Expr.exprInt j))⟩).bind
          (fun g1 => g1.instr (fuel + 1) ⟨"else", none, none⟩)).bind
          (fun g2 => g2.instr (fuel + 1) ⟨"endif", none, none⟩)).map
        (fun g3 => g3.loopStarts.length) = some g.loopStarts.length) ∧
    (∀ (g : Gen) (fuel : Nat),
      ({ g with loopStarts := [] } : Gen).instr fuel ⟨"endwhile", none, none⟩ = none) ∧
    (∀ (g : Gen) (b : Int) (fuel : Nat),
      ({ g with loopStarts := [] } : Gen).instr (fuel + 1)
        ⟨"endwhile", some (Expr.exprAddr (Expr.exprInt b)), none⟩ = none) ∧
    (∀ (g : Gen) (fuel : Nat),
      ({ g with loopStarts := [] } : Gen).instr fuel ⟨"else", none, none⟩ = none) ∧
    (∀ (g : Gen) (fuel : Nat),
      ({ g with loopStarts := [] } : Gen).instr fuel ⟨"endif", none, none⟩ = none) := by
  refine ⟨?_, ?_, ?_, ?_, ?_, ?_, ?_⟩ <;>
    intros <;>
    simp [Gen.instr, Expr.int, Gen.point, Gen.loopStart, Gen.loopEnd,
      Gen.pushLoopStart, Gen.popLoopStart, List.getLast?_concat, List.dropLast_concat]
